import Mathlib

/-!
Verification development for the God-Hand particle simulator.

The development shallowly embeds the three core components of the
repository — the gesture classifier (`GestureDetector`), the hand-signal
smoother (`SmoothingFilter`), the shape generator (`generateParticles`)
and the per-frame particle simulator (`simStep`) — and proves the spec's
testable properties about them.

Conventions of the embedding:
* exact real arithmetic stands in for IEEE doubles; `Math.random()` is
  modelled as an oracle `g : ℕ → ℝ` of successive draws;
* the gesture classifier and the smoothing filter involve no
  transcendental functions, so they are embedded computably over `ℚ`;
* JavaScript `if`/`else if` chains become nested `if` terms evaluated in
  the same order; sequential mutation of a state object becomes explicit
  state passing (`let s1 := …; let s2 := …`).
-/

namespace GodHand

/-- Gesture values of `HandData['gesture']` (src/unnamed/part_003). -/
inductive Gesture where
  | IDLE
  | EXPAND
  | COMPRESS
  | CIRCLE
  | COLLAPSE
  | CONTROL
deriving DecidableEq, Repr

/-- Per-hand sample consumed by `GestureDetector.detectGesture`
(positions are irrelevant to the detector but kept for fidelity). -/
structure DHand where
  x : ℚ
  y : ℚ
  z : ℚ
  isOpen : Bool
  isPinched : Bool
deriving DecidableEq, Repr

/-- One entry of `GestureDetector.pinchHistory`. -/
structure PinchFrame where
  leftPinched : Bool
  rightPinched : Bool
  distance : ℚ
deriving DecidableEq, Repr

/-- Mutable fields of the `GestureDetector` class (src/unnamed/part_002,
lines 490-497). -/
structure DetectorState where
  currentGesture : Gesture
  gestureStartTime : ℚ
  pinchHistory : List PinchFrame
  pendingGesture : Gesture
  pendingCount : ℕ
deriving DecidableEq, Repr

/-- Field initialisers of `GestureDetector` (equivalently the state after
`reset()`). -/
def initDetector : DetectorState :=
  { currentGesture := .IDLE
    gestureStartTime := 0
    pinchHistory := []
    pendingGesture := .IDLE
    pendingCount := 0 }

/-- Constant `historySize = 10` of `GestureDetector`. -/
def historySize : ℕ := 10

/-- Constant `confirmationThreshold = 4` of `GestureDetector`. -/
def confirmationThreshold : ℕ := 4

/-- Method `GestureDetector.addFrame`: push a frame, evicting the oldest
entry when the window exceeds `historySize`. -/
def addFrame (hist : List PinchFrame) (f : PinchFrame) : List PinchFrame :=
  let h := hist ++ [f]
  if historySize < h.length then h.tail else h

/-- Method `GestureDetector.wasRecentlyReleased`: a pinch in the oldest of
the last 4 window frames and no pinch in the newest. -/
def wasRecentlyReleased (hist : List PinchFrame) : Bool :=
  if hist.length < 4 then false
  else
    let recent := hist.drop (hist.length - 4)
    match recent[0]?, recent[3]? with
    | some a, some d =>
        (a.leftPinched || a.rightPinched) && (!d.leftPinched && !d.rightPinched)
    | _, _ => false

/-- Per-frame candidate gesture: the `detectedGesture` computation of
`GestureDetector.detectGesture` (src/unnamed/part_002, lines 540-567),
evaluated against the history that already contains the current frame. -/
def detectCandidate (left right : Option DHand) (distance : ℚ)
    (hist : List PinchFrame) : Gesture :=
  let leftPinched := (left.map DHand.isPinched).getD false
  let rightPinched := (right.map DHand.isPinched).getD false
  let leftOpen := (left.map DHand.isOpen).getD false
  let rightOpen := (right.map DHand.isOpen).getD false
  if left.isSome && right.isSome then
    if leftPinched || rightPinched then .COMPRESS
    else if leftOpen && rightOpen && wasRecentlyReleased hist then .EXPAND
    else if leftOpen && rightOpen && decide (5 < distance) && decide (distance < 18) then .CIRCLE
    else if distance < 4 then .COLLAPSE
    else .IDLE
  else if left.isSome || right.isSome then
    -- JS `left || right`
    let hand := if left.isSome then left else right
    if (hand.map DHand.isPinched).getD false then .COMPRESS
    else .IDLE
  else .IDLE

/-- Method `GestureDetector.detectGesture`: records the frame, computes the
per-frame candidate, applies the hysteresis counter and the commit policy
(instant commit for COMPRESS/COLLAPSE/EXPAND, confirmation threshold for
the rest, quick COMPRESS release). -/
def detectGesture (s : DetectorState) (left right : Option DHand)
    (distance : ℚ) (time : ℚ) : DetectorState :=
  let leftPinched := (left.map DHand.isPinched).getD false
  let rightPinched := (right.map DHand.isPinched).getD false
  let hist := addFrame s.pinchHistory ⟨leftPinched, rightPinched, distance⟩
  let detected := detectCandidate left right distance hist
  let pending := if detected = s.pendingGesture then s.pendingGesture else detected
  let pcount := if detected = s.pendingGesture then s.pendingCount + 1 else 1
  let base : DetectorState :=
    { s with pinchHistory := hist, pendingGesture := pending, pendingCount := pcount }
  if detected = .COMPRESS || detected = .COLLAPSE then
    { base with currentGesture := detected, gestureStartTime := time }
  else if detected = .EXPAND then
    { base with currentGesture := detected, gestureStartTime := time }
  else if confirmationThreshold ≤ pcount then
    if s.currentGesture ≠ pending then
      { base with currentGesture := pending, gestureStartTime := time }
    else base
  else if s.currentGesture = .COMPRESS && !leftPinched && !rightPinched then
    if 2 ≤ pcount then
      { base with currentGesture := pending, gestureStartTime := time }
    else base
  else base

/-- An open, unpinched hand (position at the origin; the detector ignores
positions). -/
def openHand : DHand := ⟨0, 0, 0, true, false⟩

/-- Detector state after `n` frames of two open hands at inter-hand
distance 10, starting from the initial detector state; frame `k` is
stamped with time `k`. -/
def circleIter : ℕ → DetectorState
  | 0 => initDetector
  | n + 1 => detectGesture (circleIter n) (some openHand) (some openHand) 10 (n : ℚ)

/-- Frames in which both pinch flags are down. -/
def allOpen (hist : List PinchFrame) : Prop :=
  ∀ f ∈ hist, f.leftPinched = false ∧ f.rightPinched = false

instance (hist : List PinchFrame) : Decidable (allOpen hist) := by
  unfold allOpen; infer_instance

theorem mem_addFrame {hist : List PinchFrame} {f x : PinchFrame}
    (hx : x ∈ addFrame hist f) : x ∈ hist ∨ x = f := by
  simp only [addFrame] at hx
  split at hx
  · have := List.mem_of_mem_tail hx
    simpa using this
  · simpa using hx

theorem allOpen_addFrame {hist : List PinchFrame} {f : PinchFrame}
    (h : allOpen hist) (hf : f.leftPinched = false ∧ f.rightPinched = false) :
    allOpen (addFrame hist f) := by
  intro x hx
  rcases mem_addFrame hx with h1 | h1
  · exact h x h1
  · simpa [h1] using hf

theorem wasRecentlyReleased_allOpen {hist : List PinchFrame}
    (h : allOpen hist) : wasRecentlyReleased hist = false := by
  unfold wasRecentlyReleased
  split
  · rfl
  · rcases h0 : (hist.drop (hist.length - 4))[0]? with _ | a
    · simp [h0]
    · rcases h3 : (hist.drop (hist.length - 4))[3]? with _ | d
      · simp [h0, h3]
      · have ha : a ∈ hist := List.mem_of_mem_drop (List.getElem?_mem h0)
        obtain ⟨hl, hr⟩ := h a ha
        simp [h0, h3, hl, hr]

/-- Invariant carried along a run of confirmed-CIRCLE frames. -/
def circleInv (s : DetectorState) : Prop :=
  s.currentGesture = .CIRCLE ∧ s.pendingGesture = .CIRCLE ∧
  confirmationThreshold ≤ s.pendingCount ∧ allOpen s.pinchHistory

theorem circleInv_base : circleInv (circleIter 4) := by
  rw [circleInv]
  refine ⟨by decide, by decide, by decide, by decide⟩

theorem detectCandidate_circleFrame {hist : List PinchFrame}
    (h : wasRecentlyReleased hist = false) :
    detectCandidate (some openHand) (some openHand) 10 hist = .CIRCLE := by
  unfold detectCandidate
  simp [openHand, h]
  intro h'
  norm_num at h'

theorem circleInv_step {s : DetectorState} (h : circleInv s) (t : ℚ) :
    circleInv (detectGesture s (some openHand) (some openHand) 10 t) := by
  obtain ⟨hcur, hpend, hcount, hopen⟩ := h
  have hall : allOpen (addFrame s.pinchHistory ⟨false, false, 10⟩) :=
    allOpen_addFrame hopen ⟨rfl, rfl⟩
  have hcand := detectCandidate_circleFrame (wasRecentlyReleased_allOpen hall)
  have hp : openHand.isPinched = false := rfl
  unfold detectGesture
  simp only [Option.map_some', Option.getD_some, hp, hcand, hpend, hcur]
  norm_num [ite_self]
  have hc : confirmationThreshold ≤ s.pendingCount + 1 := le_trans hcount (Nat.le_succ _)
  repeat' split
  all_goals exact ⟨rfl, rfl, hc, hall⟩

theorem circleInv_iter (n : ℕ) (hn : 4 ≤ n) : circleInv (circleIter n) := by
  induction n with
  | zero => omega
  | succ m ih =>
    rcases Nat.lt_or_ge m 4 with h | h
    · have : m = 3 := by omega
      subst this
      exact circleInv_base
    · exact circleInv_step (ih h) (m : ℚ)

theorem detectCandidate_dropout {hist : List PinchFrame}
    (h : wasRecentlyReleased hist = false) :
    detectCandidate (some openHand) (some openHand) 20 hist = .IDLE := by
  unfold detectCandidate
  simp [openHand, h]
  norm_num

theorem dropout_keeps_circle {s : DetectorState} (h : circleInv s) (t : ℚ) :
    (detectGesture s (some openHand) (some openHand) 20 t).currentGesture = .CIRCLE := by
  obtain ⟨hcur, hpend, hcount, hopen⟩ := h
  have hall : allOpen (addFrame s.pinchHistory ⟨false, false, 20⟩) :=
    allOpen_addFrame hopen ⟨rfl, rfl⟩
  have hcand := detectCandidate_dropout (wasRecentlyReleased_allOpen hall)
  have hp : openHand.isPinched = false := rfl
  unfold detectGesture
  simp only [Option.map_some', Option.getD_some, hp, hcand, hpend, hcur]
  repeat' split
  all_goals simp_all [confirmationThreshold]

/-- C1: from the initial detector state, a run of `n ≥ 4` frames with both
hands present, both open, neither pinched, at inter-hand distance 10
commits gesture CIRCLE; and once CIRCLE is committed, one dropout frame
(both hands still open but distance 20, whose per-frame candidate is the
non-instant gesture IDLE) leaves the committed gesture CIRCLE, because the
new candidate would itself need `confirmationThreshold` consecutive
frames. -/
theorem circle_confirmation_and_dropout (n : ℕ) (hn : confirmationThreshold ≤ n) (t : ℚ) :
    (circleIter n).currentGesture = .CIRCLE ∧
    detectCandidate (some openHand) (some openHand) 20
      (addFrame (circleIter n).pinchHistory ⟨false, false, 20⟩) = .IDLE ∧
    (detectGesture (circleIter n) (some openHand) (some openHand) 20 t).currentGesture =
      .CIRCLE := by
  have hinv := circleInv_iter n hn
  refine ⟨hinv.1, ?_, dropout_keeps_circle hinv t⟩
  exact detectCandidate_dropout
    (wasRecentlyReleased_allOpen (allOpen_addFrame hinv.2.2.2 ⟨rfl, rfl⟩))

/-- Witness for C1 at the concrete run length `n = 4` and dropout time 99. -/
theorem circle_confirmation_and_dropout_witness :
    confirmationThreshold ≤ 4 ∧
    ((circleIter 4).currentGesture = .CIRCLE ∧
      detectCandidate (some openHand) (some openHand) 20
        (addFrame (circleIter 4).pinchHistory ⟨false, false, 20⟩) = .IDLE ∧
      (detectGesture (circleIter 4) (some openHand) (some openHand) 20 99).currentGesture =
        .CIRCLE) :=
  ⟨by decide, circle_confirmation_and_dropout 4 (by decide) 99⟩

theorem detectGesture_pinchHistory (s : DetectorState) (l r : Option DHand)
    (dist t : ℚ) :
    (detectGesture s l r dist t).pinchHistory =
      addFrame s.pinchHistory
        ⟨(l.map DHand.isPinched).getD false, (r.map DHand.isPinched).getD false, dist⟩ := by
  simp only [detectGesture]
  repeat' split
  all_goals rfl

theorem wasRecentlyReleased_short {hist : List PinchFrame}
    (h : hist.length < 4) : wasRecentlyReleased hist = false := by
  unfold wasRecentlyReleased
  rw [if_pos h]

/-- A hand mid-pinch (`isOpen` false, `isPinched` true). -/
def pinchedHand : DHand := ⟨0, 0, 0, false, true⟩

/-- Left-hand input of the pinch-then-release scenario: pinched on frame 0,
open on every later frame (the right hand is open throughout). -/
def releaseLeft : ℕ → Option DHand
  | 0 => some pinchedHand
  | _ + 1 => some openHand

/-- Pinch-history tuple recorded during frame `n` of the release scenario
with inter-hand distances `d`. -/
def releaseFrame (d : ℕ → ℚ) (n : ℕ) : PinchFrame :=
  ⟨((releaseLeft n).map DHand.isPinched).getD false, false, d n⟩

/-- Detector state after the first `n` frames of the release scenario. -/
def releaseState (d : ℕ → ℚ) : ℕ → DetectorState
  | 0 => initDetector
  | n + 1 => detectGesture (releaseState d n) (releaseLeft n) (some openHand) (d n) (n : ℚ)

/-- Per-frame candidate (`detectedGesture`) computed by the classifier
during frame `n` of the release scenario. -/
def releaseCand (d : ℕ → ℚ) (n : ℕ) : Gesture :=
  detectCandidate (releaseLeft n) (some openHand) (d n)
    (addFrame (releaseState d n).pinchHistory (releaseFrame d n))

theorem addFrame_rangeMap (f : ℕ → PinchFrame) (m : ℕ) :
    addFrame (((List.range m).drop (m - historySize)).map f) (f m) =
      ((List.range (m + 1)).drop (m + 1 - historySize)).map f := by
  have happ : ((List.range m).drop (m - historySize)).map f ++ [f m] =
      ((List.range (m + 1)).drop (m - historySize)).map f := by
    rw [List.range_succ, List.drop_append_of_le_length (by simp), List.map_append]
    rfl
  have hlen : (((List.range (m + 1)).drop (m - historySize)).map f).length =
      m + 1 - (m - historySize) := by simp
  simp only [addFrame, happ, hlen]
  unfold historySize at *
  by_cases hm : 10 ≤ m
  · rw [if_pos (by omega)]
    rw [← List.map_tail, List.tail_drop]
    have : m - 10 + 1 = m + 1 - 10 := by omega
    rw [this]
  · rw [if_neg (by omega)]
    have h1 : m - 10 = 0 := by omega
    have h2 : m + 1 - 10 = 0 := by omega
    rw [h1, h2]

theorem releaseState_hist (d : ℕ → ℚ) (n : ℕ) :
    (releaseState d n).pinchHistory =
      ((List.range n).drop (n - historySize)).map (releaseFrame d) := by
  induction n with
  | zero => rfl
  | succ m ih =>
    show (detectGesture (releaseState d m) (releaseLeft m) (some openHand) (d m)
      (m : ℚ)).pinchHistory = _
    rw [detectGesture_pinchHistory, ih]
    have hfr : (⟨((releaseLeft m).map DHand.isPinched).getD false,
        ((some openHand).map DHand.isPinched).getD false, d m⟩ : PinchFrame) =
        releaseFrame d m := rfl
    rw [hfr, addFrame_rangeMap]

theorem releaseCand_hist (d : ℕ → ℚ) (n : ℕ) :
    releaseCand d n = detectCandidate (releaseLeft n) (some openHand) (d n)
      (((List.range (n + 1)).drop (n + 1 - historySize)).map (releaseFrame d)) := by
  unfold releaseCand
  rw [releaseState_hist, addFrame_rangeMap]

theorem wasRecentlyReleased_release (d : ℕ → ℚ) (n : ℕ) (hn : 3 ≤ n) :
    wasRecentlyReleased
        (((List.range (n + 1)).drop (n + 1 - historySize)).map (releaseFrame d)) =
      ((releaseFrame d (n - 3)).leftPinched || (releaseFrame d (n - 3)).rightPinched) := by
  have hlen : ((((List.range (n + 1)).drop (n + 1 - historySize)).map (releaseFrame d))).length =
      n + 1 - (n + 1 - historySize) := by simp
  have hlt0 : n + 1 - historySize + (n + 1 - (n + 1 - historySize) - 4 + 0) < n + 1 := by
    unfold historySize; omega
  have hlt3 : n + 1 - historySize + (n + 1 - (n + 1 - historySize) - 4 + 3) < n + 1 := by
    unfold historySize; omega
  have h0 : ((((List.range (n + 1)).drop (n + 1 - historySize)).map (releaseFrame d)).drop
      (n + 1 - (n + 1 - historySize) - 4))[0]? = some (releaseFrame d (n - 3)) := by
    rw [List.getElem?_drop, List.getElem?_map, List.getElem?_drop, List.getElem?_range hlt0,
      Option.map_some']
    have harg : n + 1 - historySize + (n + 1 - (n + 1 - historySize) - 4 + 0) = n - 3 := by
      unfold historySize; omega
    rw [harg]
  have h3 : ((((List.range (n + 1)).drop (n + 1 - historySize)).map (releaseFrame d)).drop
      (n + 1 - (n + 1 - historySize) - 4))[3]? = some (releaseFrame d n) := by
    rw [List.getElem?_drop, List.getElem?_map, List.getElem?_drop, List.getElem?_range hlt3,
      Option.map_some']
    have harg : n + 1 - historySize + (n + 1 - (n + 1 - historySize) - 4 + 3) = n := by
      unfold historySize; omega
    rw [harg]
  have hfn : (releaseFrame d n).leftPinched = false ∧ (releaseFrame d n).rightPinched = false := by
    cases n with
    | zero => omega
    | succ k => exact ⟨rfl, rfl⟩
  have hcond : ¬ (n + 1 - (n + 1 - historySize) < 4) := by unfold historySize; omega
  unfold wasRecentlyReleased
  rw [hlen, if_neg hcond]
  simp only [h0, h3]
  simp [hfn.1, hfn.2]

theorem detectCandidate_ne_expand {dist : ℚ} {hist : List PinchFrame}
    (h : wasRecentlyReleased hist = false) :
    detectCandidate (some openHand) (some openHand) dist hist ≠ .EXPAND := by
  unfold detectCandidate
  simp [openHand, h]
  repeat' split
  all_goals simp_all

theorem detectCandidate_expand {dist : ℚ} {hist : List PinchFrame}
    (h : wasRecentlyReleased hist = true) :
    detectCandidate (some openHand) (some openHand) dist hist = .EXPAND := by
  unfold detectCandidate
  simp [openHand, h]

theorem releaseCand_zero (d : ℕ → ℚ) : releaseCand d 0 = .COMPRESS := by
  unfold releaseCand detectCandidate
  simp [releaseLeft, pinchedHand, openHand]

/-- C6: in the pinch-then-release scenario (both hands present throughout,
exactly one initial frame with a hand pinched, all later frames with both
hands open and neither pinched, arbitrary inter-hand distances), the
per-frame EXPAND detection fires on exactly one frame — the one whose
4-frame window has the pinched frame as its oldest entry — and on no
other frame. -/
theorem expand_detection_fires_once (d : ℕ → ℚ) (n : ℕ) :
    releaseCand d n = .EXPAND ↔ n = 3 := by
  rcases n with _ | _ | _ | _ | k
  · simp [releaseCand_zero]
  · rw [releaseCand_hist]
    have hw : wasRecentlyReleased
        (((List.range (1 + 1)).drop (1 + 1 - historySize)).map (releaseFrame d)) = false := by
      refine wasRecentlyReleased_short ?_
      simp [historySize]
    simpa using detectCandidate_ne_expand hw
  · rw [releaseCand_hist]
    have hw : wasRecentlyReleased
        (((List.range (2 + 1)).drop (2 + 1 - historySize)).map (releaseFrame d)) = false := by
      refine wasRecentlyReleased_short ?_
      simp [historySize]
    simpa using detectCandidate_ne_expand hw
  · rw [releaseCand_hist]
    have hrl : releaseLeft 3 = some openHand := rfl
    rw [hrl]
    have hw := wasRecentlyReleased_release d 3 (by omega)
    have hp : (releaseFrame d (3 - 3)).leftPinched = true := rfl
    rw [hp] at hw
    simp only [Bool.true_or] at hw
    rw [detectCandidate_expand hw]
    simp
  · rw [releaseCand_hist]
    have hrl : releaseLeft (k + 4) = some openHand := rfl
    rw [hrl]
    have hw := wasRecentlyReleased_release d (k + 4) (by omega)
    have hp : (releaseFrame d (k + 4 - 3)).leftPinched = false := by
      have he : k + 4 - 3 = k + 1 := by omega
      rw [he]; rfl
    have hq : (releaseFrame d (k + 4 - 3)).rightPinched = false := rfl
    rw [hp, hq] at hw
    simp only [Bool.or_self] at hw
    have hne : detectCandidate (some openHand) (some openHand) (d (k + 4))
        (((List.range (k + 4 + 1)).drop (k + 4 + 1 - historySize)).map (releaseFrame d)) ≠
        .EXPAND := detectCandidate_ne_expand hw
    exact ⟨fun hEq => absurd hEq hne, fun hEq => absurd hEq (by omega)⟩

/-- Point triple handled by `SmoothingFilter` (src/unnamed/part_002,
lines 447-487). -/
structure SPoint where
  x : ℚ
  y : ℚ
  z : ℚ
deriving DecidableEq, Repr

/-- State of one `SmoothingFilter` instance: the `history` FIFO plus the
configured `windowSize`. -/
structure SmoothingFilter where
  history : List SPoint
  windowSize : ℕ
deriving DecidableEq, Repr

/-- A freshly constructed `SmoothingFilter(5)` (the window size used for
both hands in `HandTracker`, equal to the declaration default). -/
def initFilter : SmoothingFilter := { history := [], windowSize := 5 }

/-- Accumulation loop of `SmoothingFilter.getSmoothed`: the `forEach` over
`history` accumulating `(totalWeight, sumX, sumY, sumZ)`, where the entry
at 0-based index `i` receives weight `i + 1`. -/
def smoothAux : List SPoint → ℕ → ℚ × ℚ × ℚ × ℚ → ℚ × ℚ × ℚ × ℚ
  | [], _, acc => acc
  | p :: rest, i, acc =>
      smoothAux rest (i + 1)
        (acc.1 + ((i : ℚ) + 1), acc.2.1 + p.x * ((i : ℚ) + 1),
          acc.2.2.1 + p.y * ((i : ℚ) + 1), acc.2.2.2 + p.z * ((i : ℚ) + 1))

/-- Method `SmoothingFilter.getSmoothed`. -/
def getSmoothed (hist : List SPoint) : SPoint :=
  if hist.length = 0 then ⟨0, 0, 0⟩
  else
    let acc := smoothAux hist 0 (0, 0, 0, 0)
    ⟨acc.2.1 / acc.1, acc.2.2.1 / acc.1, acc.2.2.2 / acc.1⟩

/-- Method `SmoothingFilter.add`: push a copy of the sample, evict the
oldest entry once the FIFO exceeds `windowSize`, and return the smoothed
value of the updated history. -/
def SmoothingFilter.add (f : SmoothingFilter) (p : SPoint) : SmoothingFilter × SPoint :=
  let h0 := f.history ++ [p]
  let h := if f.windowSize < h0.length then h0.tail else h0
  ({ f with history := h }, getSmoothed h)

/-- Filter state after pushing the samples `ps` in order. -/
def pushAll (f : SmoothingFilter) (ps : List SPoint) : SmoothingFilter :=
  ps.foldl (fun g p => (g.add p).1) f

/-- The spec's description of the smoothed value, stated independently of
the code: per coordinate, the sum of the i-th oldest sample (1-indexed)
times its weight i, divided by the sum of the weights. -/
def specSmoothed (hist : List SPoint) : SPoint :=
  ⟨(∑ i ∈ Finset.range hist.length, (hist.getD i ⟨0, 0, 0⟩).x * ((i : ℚ) + 1)) /
      ∑ i ∈ Finset.range hist.length, ((i : ℚ) + 1),
    (∑ i ∈ Finset.range hist.length, (hist.getD i ⟨0, 0, 0⟩).y * ((i : ℚ) + 1)) /
      ∑ i ∈ Finset.range hist.length, ((i : ℚ) + 1),
    (∑ i ∈ Finset.range hist.length, (hist.getD i ⟨0, 0, 0⟩).z * ((i : ℚ) + 1)) /
      ∑ i ∈ Finset.range hist.length, ((i : ℚ) + 1)⟩

theorem smoothAux_eq (l : List SPoint) : ∀ (j : ℕ) (w sx sy sz : ℚ),
    smoothAux l j (w, sx, sy, sz) =
      (w + ∑ i ∈ Finset.range l.length, ((j : ℚ) + i + 1),
        sx + ∑ i ∈ Finset.range l.length, (l.getD i ⟨0, 0, 0⟩).x * ((j : ℚ) + i + 1),
        sy + ∑ i ∈ Finset.range l.length, (l.getD i ⟨0, 0, 0⟩).y * ((j : ℚ) + i + 1),
        sz + ∑ i ∈ Finset.range l.length, (l.getD i ⟨0, 0, 0⟩).z * ((j : ℚ) + i + 1)) := by
  induction l with
  | nil => intro j w sx sy sz; simp [smoothAux]
  | cons p rest ih =>
    intro j w sx sy sz
    rw [smoothAux, ih]
    refine Prod.ext ?_ (Prod.ext ?_ (Prod.ext ?_ ?_))
    all_goals
      simp only [List.length_cons, Finset.sum_range_succ', List.getD_cons_succ,
        List.getD_cons_zero, Nat.cast_add, Nat.cast_one, Nat.cast_zero]
    all_goals ring_nf
    all_goals congr 1
    all_goals exact Finset.sum_congr rfl fun i a => by ring

theorem add_history (f : SmoothingFilter) (p : SPoint) (hw : f.windowSize = 5)
    (hlen : f.history.length ≤ 5) :
    ((f.add p).1).history = (f.history ++ [p]).drop ((f.history ++ [p]).length - 5) := by
  simp only [SmoothingFilter.add, hw]
  split
  · rename_i hgt
    have h5 : (f.history ++ [p]).length - 5 = 1 := by
      simp only [List.length_append, List.length_cons, List.length_nil] at *
      omega
    rw [h5, ← List.drop_one]
  · rename_i hle
    have h0 : (f.history ++ [p]).length - 5 = 0 := by
      simp only [List.length_append, List.length_cons, List.length_nil] at *
      omega
    rw [h0, List.drop_zero]

theorem add_windowSize (f : SmoothingFilter) (p : SPoint) :
    ((f.add p).1).windowSize = f.windowSize := rfl

theorem pushAll_history (ps : List SPoint) :
    ∀ (f : SmoothingFilter), f.windowSize = 5 → f.history.length ≤ 5 →
      (pushAll f ps).history = (f.history ++ ps).drop ((f.history ++ ps).length - 5) := by
  induction ps with
  | nil =>
    intro f hw hlen
    simp only [pushAll, List.foldl_nil, List.append_nil]
    have h0 : f.history.length - 5 = 0 := by omega
    rw [h0, List.drop_zero]
  | cons p ps ih =>
    intro f hw hlen
    have hstep := add_history f p hw hlen
    have hw1 : ((f.add p).1).windowSize = 5 := by rw [add_windowSize, hw]
    have hlen1 : ((f.add p).1).history.length ≤ 5 := by
      rw [hstep]
      simp only [List.length_drop, List.length_append, List.length_cons, List.length_nil]
      omega
    have := ih (f.add p).1 hw1 hlen1
    show (pushAll (f.add p).1 ps).history = _
    rw [this, hstep]
    have hda : (f.history ++ [p]).drop ((f.history ++ [p]).length - 5) ++ ps =
        ((f.history ++ [p]) ++ ps).drop ((f.history ++ [p]).length - 5) :=
      (List.drop_append_of_le_length (by
        simp only [List.length_append, List.length_cons, List.length_nil]
        omega)).symm
    rw [hda, List.drop_drop]
    rw [List.append_assoc, List.singleton_append]
    congr 1
    simp only [List.length_drop, List.length_append, List.length_cons, List.length_nil]
    omega

theorem getSmoothed_eq_specSmoothed (hist : List SPoint) (h : hist ≠ []) :
    getSmoothed hist = specSmoothed hist := by
  unfold getSmoothed specSmoothed
  rw [if_neg (by simpa using h)]
  rw [smoothAux_eq]
  simp only [Nat.cast_zero, zero_add]

/-- C9: the hand-signal smoother keeps at most `windowSize = 5` samples,
evicting the oldest first (its history after any push sequence is exactly
the last five pushes); the smoothed output of an empty history is the
zero point; and for any non-empty history the smoothed output is, per
coordinate, the linearly weighted average in which the i-th oldest sample
(1-indexed) has weight i. Both the history and the output are functions
of the push sequence alone, so the filter is deterministic. -/
theorem smoothing_filter_weighted_average (ps : List SPoint) :
    (pushAll initFilter ps).history = ps.drop (ps.length - 5) ∧
    (pushAll initFilter ps).history.length ≤ 5 ∧
    getSmoothed [] = ⟨0, 0, 0⟩ ∧
    (∀ hist : List SPoint, hist ≠ [] → getSmoothed hist = specSmoothed hist) := by
  have h1 := pushAll_history ps initFilter rfl (by simp [initFilter])
  have he : initFilter.history = [] := rfl
  rw [he, List.nil_append] at h1
  refine ⟨h1, ?_, rfl, fun hist hne => getSmoothed_eq_specSmoothed hist hne⟩
  rw [h1]
  simp only [List.length_drop]
  omega

/-- Witness for C9 at a concrete push sequence and a concrete non-empty
history. -/
theorem smoothing_filter_weighted_average_witness :
    (pushAll initFilter [⟨1, 2, 3⟩, ⟨4, 5, 6⟩]).history = [⟨1, 2, 3⟩, ⟨4, 5, 6⟩] ∧
    getSmoothed [⟨1, 2, 3⟩, ⟨4, 5, 6⟩] = specSmoothed [⟨1, 2, 3⟩, ⟨4, 5, 6⟩] := by
  have h := smoothing_filter_weighted_average [⟨1, 2, 3⟩, ⟨4, 5, 6⟩]
  exact ⟨by simpa using h.1, h.2.2.2 [⟨1, 2, 3⟩, ⟨4, 5, 6⟩] (by decide)⟩

noncomputable section

open Real

open scoped Classical

/-- Three-component real vector (THREE.Vector3). -/
structure Vec3 where
  x : ℝ
  y : ℝ
  z : ℝ

namespace Vec3

def add (a b : Vec3) : Vec3 := ⟨a.x + b.x, a.y + b.y, a.z + b.z⟩

def sub (a b : Vec3) : Vec3 := ⟨a.x - b.x, a.y - b.y, a.z - b.z⟩

def smul (c : ℝ) (v : Vec3) : Vec3 := ⟨c * v.x, c * v.y, c * v.z⟩

def dot (a b : Vec3) : ℝ := a.x * b.x + a.y * b.y + a.z * b.z

/-- Euclidean length, `Math.sqrt(x*x + y*y + z*z)`. -/
def norm (v : Vec3) : ℝ := Real.sqrt (v.x ^ 2 + v.y ^ 2 + v.z ^ 2)

end Vec3

/-- Cube root, `Math.cbrt` (the draws it is applied to are nonnegative). -/
def cbrt (x : ℝ) : ℝ := x ^ ((1 : ℝ) / 3)

/-- Source `randomInSphere` (src/unnamed/part_000, lines 5-17). The three
`Math.random()` calls are drawn from the oracle `g` at indices `k`,
`k+1`, `k+2`; the point and the next oracle index are returned. -/
def randomInSphere (radius : ℝ) (g : ℕ → ℝ) (k : ℕ) : Vec3 × ℕ :=
  let u := g k
  let v := g (k + 1)
  let theta := 2 * π * u
  let phi := Real.arccos (2 * v - 1)
  let r := cbrt (g (k + 2)) * radius
  (⟨r * Real.sin phi * Real.cos theta, r * Real.sin phi * Real.sin theta,
    r * Real.cos phi⟩, k + 3)

theorem norm_randomInSphere (radius : ℝ) (hr : 0 ≤ radius) (g : ℕ → ℝ)
    (hg : ∀ n, 0 ≤ g n ∧ g n < 1) (k : ℕ) :
    Vec3.norm (randomInSphere radius g k).1 ≤ radius := by
  obtain ⟨hw0, hw1⟩ := hg (k + 2)
  have hc0 : 0 ≤ cbrt (g (k + 2)) := Real.rpow_nonneg hw0 _
  have hc1 : cbrt (g (k + 2)) ≤ 1 :=
    Real.rpow_le_one hw0 (le_of_lt hw1) (by norm_num)
  set r := cbrt (g (k + 2)) * radius with hrdef
  have hr0 : 0 ≤ r := mul_nonneg hc0 hr
  have hrle : r ≤ radius := by
    calc r = cbrt (g (k + 2)) * radius := hrdef
    _ ≤ 1 * radius := by exact mul_le_mul_of_nonneg_right hc1 hr
    _ = radius := one_mul radius
  show Real.sqrt _ ≤ radius
  have h1 := Real.sin_sq_add_cos_sq (2 * π * g k)
  have h2 := Real.sin_sq_add_cos_sq (Real.arccos (2 * g (k + 1) - 1))
  have hsum : (r * Real.sin (Real.arccos (2 * g (k + 1) - 1)) * Real.cos (2 * π * g k)) ^ 2 +
      (r * Real.sin (Real.arccos (2 * g (k + 1) - 1)) * Real.sin (2 * π * g k)) ^ 2 +
      (r * Real.cos (Real.arccos (2 * g (k + 1) - 1))) ^ 2 = r ^ 2 := by
    linear_combination (r ^ 2 * Real.sin (Real.arccos (2 * g (k + 1) - 1)) ^ 2) * h1 +
      r ^ 2 * h2
  rw [show (randomInSphere radius g k).1 = ⟨r * Real.sin (Real.arccos (2 * g (k + 1) - 1)) *
      Real.cos (2 * π * g k), r * Real.sin (Real.arccos (2 * g (k + 1) - 1)) *
      Real.sin (2 * π * g k), r * Real.cos (Real.arccos (2 * g (k + 1) - 1))⟩ from rfl]
  simp only [Vec3.norm] at *
  rw [hsum, Real.sqrt_sq hr0]
  exact hrle

/-- Shape kinds (`ShapeType`, src/unnamed/part_003). -/
inductive ShapeType where
  | SPHERE
  | CUBE
  | HEART
  | FLOWER
  | SATURN
  | GALAXY
  | BUDDHA
deriving DecidableEq, Repr

/-- Branch discriminator of the SATURN case: the draw sends the particle
into the planet body exactly when it exceeds 0.4
(`Math.random() > 0.4`). -/
def saturnIsPlanetBranch (u : ℝ) : Prop := u > 0.4

/-- Rodrigues rotation of `v` about the unit axis `ax` by `angle`
(THREE.Vector3.applyAxisAngle for a normalised axis). -/
def axisAngleRotate (ax : Vec3) (angle : ℝ) (v : Vec3) : Vec3 :=
  let c := Real.cos angle
  let s := Real.sin angle
  let d := Vec3.dot ax v
  ⟨v.x * c + (ax.y * v.z - ax.z * v.y) * s + ax.x * d * (1 - c),
    v.y * c + (ax.z * v.x - ax.x * v.z) * s + ax.y * d * (1 - c),
    v.z * c + (ax.x * v.y - ax.y * v.x) * s + ax.z * d * (1 - c)⟩

/-- The normalisation of (1, 0, 1), the SATURN ring tilt axis. -/
def saturnAxis : Vec3 := ⟨1 / Real.sqrt 2, 0, 1 / Real.sqrt 2⟩

/-- Ring arm of the SATURN case (the `else` branch, src/unnamed/part_000
lines 69-78), drawing from oracle index `k`. -/
def saturnRing (g : ℕ → ℝ) (k : ℕ) : Vec3 × ℕ :=
  let rRing := 6 + g k * 6
  let thetaRing := g (k + 1) * π * 2
  let p : Vec3 := ⟨rRing * Real.cos thetaRing, (g (k + 2) - 0.5) * 0.5,
    rRing * Real.sin thetaRing⟩
  (axisAngleRotate saturnAxis (π / 6) p, k + 3)

/-- SATURN case of `generateParticles` (src/unnamed/part_000, lines
64-80): branch draw at index `k`, then the planet body or the ring. -/
def saturnPoint (g : ℕ → ℝ) (k : ℕ) : Vec3 × ℕ :=
  if saturnIsPlanetBranch (g k) then randomInSphere 4 g (k + 1)
  else saturnRing g (k + 1)

/-- Rejection loop of the BUDDHA case (src/unnamed/part_000, lines
96-117); the fuel argument counts the remaining attempts out of 20. -/
def buddhaLoop (g : ℕ → ℝ) : ℕ → ℕ → Option Vec3 × ℕ
  | k, 0 => (none, k)
  | k, fuel + 1 =>
      let tryP : Vec3 := ⟨(g k - 0.5) * 10, (g (k + 1) - 0.5) * 12, (g (k + 2) - 0.5) * 6⟩
      let headHit := Vec3.norm (Vec3.sub tryP ⟨0, 4, 0⟩) < 1.5
      let bodyHit := Vec3.norm (Vec3.sub tryP ⟨0, 0, 0⟩) < 3.5
      let legsHit := tryP.y < -2 ∧ tryP.y > -5 ∧ |tryP.x| < 4 ∧ |tryP.z| < 3
      if headHit ∨ bodyHit ∨ legsHit then (some tryP, k + 3)
      else buddhaLoop g (k + 3) fuel

/-- One particle of `generateParticles` (src/unnamed/part_000, lines
22-127): the switch over the shape kind for particle index `i` of `cnt`,
drawing oracle values from index `k`. -/
def genPoint (ty : ShapeType) (cnt : ℕ) (g : ℕ → ℝ) (i k : ℕ) : Vec3 × ℕ :=
  match ty with
  | .SPHERE => randomInSphere 10 g k
  | .CUBE => (⟨(g k - 0.5) * 20, (g (k + 1) - 0.5) * 20, (g (k + 2) - 0.5) * 20⟩, k + 3)
  | .HEART =>
      let t := g k * π * 2
      let hR := g (k + 1) * 2
      let x := 16 * Real.sin t ^ 3
      let y := 13 * Real.cos t - 5 * Real.cos (2 * t) - 2 * Real.cos (3 * t) - Real.cos (4 * t)
      let p : Vec3 := ⟨x, y, (g (k + 2) - 0.5) * 4⟩
      let p := Vec3.smul 0.5 p
      let q := randomInSphere 0.5 g (k + 3)
      (Vec3.add p q.1, q.2)
  | .FLOWER =>
      let angle := (i : ℝ) * 137.5 * (π / 180)
      let radius := 0.5 * Real.sqrt (i : ℝ)
      let p : Vec3 := ⟨radius * Real.cos angle, radius * Real.sin angle,
        (g k - 0.5) * (radius * 0.5)⟩
      (Vec3.smul 0.4 p, k + 1)
  | .SATURN => saturnPoint g k
  | .GALAXY =>
      let arms : ℝ := 3
      let spin := (i : ℝ) / (cnt : ℝ) * arms * π * 2
      let dist := g k * 15
      (⟨Real.cos (spin + dist) * dist, (g (k + 1) - 0.5) * (20 / (dist + 1)),
        Real.sin (spin + dist) * dist⟩, k + 2)
  | .BUDDHA =>
      match buddhaLoop g k 20 with
      | (some p, kn) => (p, kn)
      | (none, kn) => randomInSphere 3 g kn

/-- Particle loop of `generateParticles`: the remaining `n` points
starting at particle index `i` and oracle index `k`. -/
def genPoints (ty : ShapeType) (cnt : ℕ) (g : ℕ → ℝ) : ℕ → ℕ → ℕ → List Vec3
  | 0, _, _ => []
  | n + 1, i, k =>
      let pk := genPoint ty cnt g i k
      pk.1 :: genPoints ty cnt g n (i + 1) pk.2

/-- Source `generateParticles` (src/unnamed/part_000, lines 19-131): the
flattened `positions` array; entries `3i`, `3i+1`, `3i+2` hold the
coordinates of particle `i`. -/
def generateParticles (cnt : ℕ) (ty : ShapeType) (g : ℕ → ℝ) : List ℝ :=
  (genPoints ty cnt g cnt 0 0).foldr (fun p acc => p.x :: p.y :: p.z :: acc) []

theorem genPoints_length (ty : ShapeType) (cnt : ℕ) (g : ℕ → ℝ) :
    ∀ n i k, (genPoints ty cnt g n i k).length = n := by
  intro n
  induction n with
  | zero => intro i k; rfl
  | succ m ih => intro i k; simp only [genPoints, List.length_cons, ih]

theorem flatten_length (l : List Vec3) :
    (l.foldr (fun p acc => p.x :: p.y :: p.z :: acc) ([] : List ℝ)).length = 3 * l.length := by
  induction l with
  | nil => rfl
  | cons p rest ih => simp only [List.foldr_cons, List.length_cons, ih]; ring

theorem genPoints_sphere_norm (cnt : ℕ) (g : ℕ → ℝ) (hg : ∀ n, 0 ≤ g n ∧ g n < 1) :
    ∀ n i k, ∀ p ∈ genPoints .SPHERE cnt g n i k, Vec3.norm p ≤ 10 := by
  intro n
  induction n with
  | zero => intro i k p hp; simp [genPoints] at hp
  | succ m ih =>
    intro i k p hp
    simp only [genPoints, List.mem_cons] at hp
    rcases hp with hp | hp
    · rw [hp]
      exact norm_randomInSphere 10 (by norm_num) g hg k
    · exact ih (i + 1) _ p hp

theorem abs_x_le_norm (v : Vec3) : |v.x| ≤ Vec3.norm v := by
  rw [Vec3.norm, ← Real.sqrt_sq_eq_abs]
  apply Real.sqrt_le_sqrt
  nlinarith [sq_nonneg v.y, sq_nonneg v.z]

theorem abs_y_le_norm (v : Vec3) : |v.y| ≤ Vec3.norm v := by
  rw [Vec3.norm, ← Real.sqrt_sq_eq_abs]
  apply Real.sqrt_le_sqrt
  nlinarith [sq_nonneg v.x, sq_nonneg v.z]

theorem abs_z_le_norm (v : Vec3) : |v.z| ≤ Vec3.norm v := by
  rw [Vec3.norm, ← Real.sqrt_sq_eq_abs]
  apply Real.sqrt_le_sqrt
  nlinarith [sq_nonneg v.x, sq_nonneg v.y]

theorem abs_draw_le_half {g : ℕ → ℝ} (hg : ∀ n, 0 ≤ g n ∧ g n < 1) (n : ℕ) :
    |g n - 0.5| ≤ 0.5 := by
  obtain ⟨h0, h1⟩ := hg n
  rw [abs_le]
  constructor <;> linarith

/-- The Rodrigues rotation about the normalised SATURN axis preserves the
Euclidean length. -/
theorem norm_axisAngleRotate_saturnAxis (angle : ℝ) (v : Vec3) :
    Vec3.norm (axisAngleRotate saturnAxis angle v) = Vec3.norm v := by
  have ha : (1 / Real.sqrt 2) ^ 2 = 1 / 2 := by
    rw [div_pow, one_pow, Real.sq_sqrt (by norm_num : (0:ℝ) ≤ 2)]
  have hsc := Real.sin_sq_add_cos_sq angle
  simp only [axisAngleRotate, saturnAxis, Vec3.dot, Vec3.norm]
  congr 1
  linear_combination (v.x ^ 2 + v.y ^ 2 + v.z ^ 2 - (v.x + v.z) ^ 2 / 2) * hsc +
    ((Real.sin angle) ^ 2 * (2 * v.y ^ 2 + (v.x - v.z) ^ 2) +
      2 * (v.x + v.z) ^ 2 * (1 - Real.cos angle) ^ 2 * ((1 / Real.sqrt 2) ^ 2 + 1 / 2) +
      2 * (v.x + v.z) ^ 2 * Real.cos angle * (1 - Real.cos angle)) * ha

theorem norm_saturnRing (g : ℕ → ℝ) (hg : ∀ n, 0 ≤ g n ∧ g n < 1) (k : ℕ) :
    Vec3.norm (saturnRing g k).1 ≤ 12.25 := by
  obtain ⟨h00, h01⟩ := hg k
  have hy := abs_draw_le_half hg (k + 2)
  rw [abs_le] at hy
  have hsc := Real.sin_sq_add_cos_sq (g (k + 1) * π * 2)
  show Vec3.norm (axisAngleRotate saturnAxis (π / 6)
      ⟨(6 + g k * 6) * Real.cos (g (k + 1) * π * 2), (g (k + 2) - 0.5) * 0.5,
        (6 + g k * 6) * Real.sin (g (k + 1) * π * 2)⟩) ≤ 12.25
  rw [norm_axisAngleRotate_saturnAxis]
  unfold Vec3.norm
  rw [show (12.25 : ℝ) = Real.sqrt (12.25 ^ 2) from (Real.sqrt_sq (by norm_num)).symm]
  apply Real.sqrt_le_sqrt
  have hprod : (6 + g k * 6) ^ 2 *
      (Real.sin (g (k + 1) * π * 2) ^ 2 + Real.cos (g (k + 1) * π * 2) ^ 2) =
      (6 + g k * 6) ^ 2 := by rw [hsc, mul_one]
  nlinarith [hprod, hy.1, hy.2, h00, h01]

theorem norm_saturnPoint (g : ℕ → ℝ) (hg : ∀ n, 0 ≤ g n ∧ g n < 1) (k : ℕ) :
    Vec3.norm (saturnPoint g k).1 ≤ 12.25 := by
  unfold saturnPoint
  split
  · calc Vec3.norm (randomInSphere 4 g (k + 1)).1 ≤ 4 :=
        norm_randomInSphere 4 (by norm_num) g hg (k + 1)
    _ ≤ 12.25 := by norm_num
  · exact norm_saturnRing g hg (k + 1)

theorem buddhaLoop_bounds (g : ℕ → ℝ) (hg : ∀ n, 0 ≤ g n ∧ g n < 1) :
    ∀ (fuel k : ℕ) (p : Vec3) (kn : ℕ), buddhaLoop g k fuel = (some p, kn) →
      |p.x| ≤ 5 ∧ |p.y| ≤ 6 ∧ |p.z| ≤ 3 := by
  intro fuel
  induction fuel with
  | zero =>
      intro k p kn h
      simp [buddhaLoop] at h
  | succ m ih =>
      intro k p kn h
      simp only [buddhaLoop] at h
      split at h
      · injection h with h1 h2
        injection h1 with h1
        subst h1
        have hx := abs_draw_le_half hg k
        have hyd := abs_draw_le_half hg (k + 1)
        have hz := abs_draw_le_half hg (k + 2)
        rw [abs_le] at hx hyd hz
        refine ⟨?_, ?_, ?_⟩
        · show |(g k - 0.5) * 10| ≤ 5
          rw [abs_le]
          constructor <;> linarith [hx.1, hx.2]
        · show |(g (k + 1) - 0.5) * 12| ≤ 6
          rw [abs_le]
          constructor <;> linarith [hyd.1, hyd.2]
        · show |(g (k + 2) - 0.5) * 6| ≤ 3
          rw [abs_le]
          constructor <;> linarith [hz.1, hz.2]
      · exact ih _ _ _ h

/-- The documented bounding region of each shape template (spec section
4.1): SPHERE within radius 10 of the origin; CUBE within the ±10 cube;
HEART within the half-scaled heart curve box widened by the 0.5 jitter;
FLOWER within the 0.4-scaled phyllotaxis disc of the given count; SATURN
within radius 12.25 (ring radius up to 12 with ±1/4 vertical jitter and a
length-preserving tilt, planet body within radius 4); GALAXY within the
15 × 10 × 15 box; BUDDHA within the ±5 × ±6 × ±3 rejection-sampling
box. -/
def inBoundingRegion (ty : ShapeType) (cnt : ℕ) (p : Vec3) : Prop :=
  match ty with
  | .SPHERE => Vec3.norm p ≤ 10
  | .CUBE => |p.x| ≤ 10 ∧ |p.y| ≤ 10 ∧ |p.z| ≤ 10
  | .HEART => |p.x| ≤ 8.5 ∧ |p.y| ≤ 11 ∧ |p.z| ≤ 1.5
  | .FLOWER => |p.x| ≤ 0.2 * Real.sqrt (cnt : ℝ) ∧ |p.y| ≤ 0.2 * Real.sqrt (cnt : ℝ) ∧
      |p.z| ≤ 0.1 * Real.sqrt (cnt : ℝ)
  | .SATURN => Vec3.norm p ≤ 12.25
  | .GALAXY => |p.x| ≤ 15 ∧ |p.y| ≤ 10 ∧ |p.z| ≤ 15
  | .BUDDHA => |p.x| ≤ 5 ∧ |p.y| ≤ 6 ∧ |p.z| ≤ 3

theorem genPoint_cube_bounds (cnt : ℕ) (g : ℕ → ℝ)
    (hg : ∀ n, 0 ≤ g n ∧ g n < 1) (i k : ℕ) :
    |(genPoint .CUBE cnt g i k).1.x| ≤ 10 ∧ |(genPoint .CUBE cnt g i k).1.y| ≤ 10 ∧
      |(genPoint .CUBE cnt g i k).1.z| ≤ 10 := by
  have h0 := abs_draw_le_half hg k
  have h1 := abs_draw_le_half hg (k + 1)
  have h2 := abs_draw_le_half hg (k + 2)
  rw [abs_le] at h0 h1 h2
  simp only [genPoint]
  refine ⟨?_, ?_, ?_⟩ <;>
    · rw [abs_le]
      constructor <;> linarith [h0.1, h0.2, h1.1, h1.2, h2.1, h2.2]

theorem genPoint_heart_bounds (cnt : ℕ) (g : ℕ → ℝ)
    (hg : ∀ n, 0 ≤ g n ∧ g n < 1) (i k : ℕ) :
    |(genPoint .HEART cnt g i k).1.x| ≤ 8.5 ∧ |(genPoint .HEART cnt g i k).1.y| ≤ 11 ∧
      |(genPoint .HEART cnt g i k).1.z| ≤ 1.5 := by
  have hqn : Vec3.norm (randomInSphere 0.5 g (k + 3)).1 ≤ 0.5 :=
    norm_randomInSphere 0.5 (by norm_num) g hg (k + 3)
  have hqx := le_trans (abs_x_le_norm (randomInSphere 0.5 g (k + 3)).1) hqn
  have hqy := le_trans (abs_y_le_norm (randomInSphere 0.5 g (k + 3)).1) hqn
  have hqz := le_trans (abs_z_le_norm (randomInSphere 0.5 g (k + 3)).1) hqn
  rw [abs_le] at hqx hqy hqz
  have hs1 := Real.neg_one_le_sin (g k * π * 2)
  have hs2 := Real.sin_le_one (g k * π * 2)
  have hcube : -1 ≤ Real.sin (g k * π * 2) ^ 3 ∧ Real.sin (g k * π * 2) ^ 3 ≤ 1 := by
    constructor <;>
      nlinarith [sq_nonneg (Real.sin (g k * π * 2) + 1),
        sq_nonneg (Real.sin (g k * π * 2) - 1), sq_nonneg (Real.sin (g k * π * 2))]
  have hc1a := Real.neg_one_le_cos (g k * π * 2)
  have hc1b := Real.cos_le_one (g k * π * 2)
  have hc2a := Real.neg_one_le_cos (2 * (g k * π * 2))
  have hc2b := Real.cos_le_one (2 * (g k * π * 2))
  have hc3a := Real.neg_one_le_cos (3 * (g k * π * 2))
  have hc3b := Real.cos_le_one (3 * (g k * π * 2))
  have hc4a := Real.neg_one_le_cos (4 * (g k * π * 2))
  have hc4b := Real.cos_le_one (4 * (g k * π * 2))
  have hzd := abs_draw_le_half hg (k + 2)
  rw [abs_le] at hzd
  simp only [genPoint, Vec3.add, Vec3.smul]
  refine ⟨?_, ?_, ?_⟩
  · rw [abs_le]
    constructor <;> linarith [hcube.1, hcube.2, hqx.1, hqx.2]
  · rw [abs_le]
    constructor <;> linarith [hqy.1, hqy.2]
  · rw [abs_le]
    constructor <;> linarith [hqz.1, hqz.2, hzd.1, hzd.2]

theorem genPoint_flower_bounds (cnt : ℕ) (g : ℕ → ℝ)
    (hg : ∀ n, 0 ≤ g n ∧ g n < 1) (i k : ℕ) (hi : i < cnt) :
    |(genPoint .FLOWER cnt g i k).1.x| ≤ 0.2 * Real.sqrt (cnt : ℝ) ∧
      |(genPoint .FLOWER cnt g i k).1.y| ≤ 0.2 * Real.sqrt (cnt : ℝ) ∧
      |(genPoint .FLOWER cnt g i k).1.z| ≤ 0.1 * Real.sqrt (cnt : ℝ) := by
  have hri : Real.sqrt (i : ℝ) ≤ Real.sqrt (cnt : ℝ) :=
    Real.sqrt_le_sqrt (by exact_mod_cast le_of_lt hi)
  have hr0 : (0 : ℝ) ≤ Real.sqrt (i : ℝ) := Real.sqrt_nonneg _
  have hrc : (0 : ℝ) ≤ Real.sqrt (cnt : ℝ) := Real.sqrt_nonneg _
  have hc1 := Real.neg_one_le_cos ((i : ℝ) * 137.5 * (π / 180))
  have hc2 := Real.cos_le_one ((i : ℝ) * 137.5 * (π / 180))
  have hs1 := Real.neg_one_le_sin ((i : ℝ) * 137.5 * (π / 180))
  have hs2 := Real.sin_le_one ((i : ℝ) * 137.5 * (π / 180))
  have hgd := abs_draw_le_half hg k
  rw [abs_le] at hgd
  simp only [genPoint, Vec3.smul]
  refine ⟨?_, ?_, ?_⟩
  · rw [abs_le]
    constructor <;>
      nlinarith [mul_nonneg hr0 (by linarith : (0:ℝ) ≤ 1 - Real.cos ((i : ℝ) * 137.5 * (π / 180))),
        mul_nonneg hr0 (by linarith : (0:ℝ) ≤ 1 + Real.cos ((i : ℝ) * 137.5 * (π / 180)))]
  · rw [abs_le]
    constructor <;>
      nlinarith [mul_nonneg hr0 (by linarith : (0:ℝ) ≤ 1 - Real.sin ((i : ℝ) * 137.5 * (π / 180))),
        mul_nonneg hr0 (by linarith : (0:ℝ) ≤ 1 + Real.sin ((i : ℝ) * 137.5 * (π / 180)))]
  · rw [abs_le]
    constructor <;>
      nlinarith [mul_nonneg (by linarith : (0:ℝ) ≤ 0.5 - (g k - 0.5)) hr0,
        mul_nonneg (by linarith : (0:ℝ) ≤ (g k - 0.5) + 0.5) hr0]

theorem genPoint_galaxy_bounds (cnt : ℕ) (g : ℕ → ℝ)
    (hg : ∀ n, 0 ≤ g n ∧ g n < 1) (i k : ℕ) :
    |(genPoint .GALAXY cnt g i k).1.x| ≤ 15 ∧ |(genPoint .GALAXY cnt g i k).1.y| ≤ 10 ∧
      |(genPoint .GALAXY cnt g i k).1.z| ≤ 15 := by
  obtain ⟨hd0, hd1⟩ := hg k
  have hc1 := Real.neg_one_le_cos ((i : ℝ) / (cnt : ℝ) * 3 * π * 2 + g k * 15)
  have hc2 := Real.cos_le_one ((i : ℝ) / (cnt : ℝ) * 3 * π * 2 + g k * 15)
  have hs1 := Real.neg_one_le_sin ((i : ℝ) / (cnt : ℝ) * 3 * π * 2 + g k * 15)
  have hs2 := Real.sin_le_one ((i : ℝ) / (cnt : ℝ) * 3 * π * 2 + g k * 15)
  have hgd := abs_draw_le_half hg (k + 1)
  rw [abs_le] at hgd
  have hq0 : (0 : ℝ) ≤ 20 / (g k * 15 + 1) := by positivity
  have hq1 : 20 / (g k * 15 + 1) ≤ 20 := div_le_self (by norm_num) (by nlinarith)
  simp only [genPoint]
  refine ⟨?_, ?_, ?_⟩
  · rw [abs_le]
    constructor <;>
      nlinarith [mul_nonneg (by nlinarith : (0:ℝ) ≤ g k * 15)
          (by linarith : (0:ℝ) ≤ 1 - Real.cos ((i : ℝ) / (cnt : ℝ) * 3 * π * 2 + g k * 15)),
        mul_nonneg (by nlinarith : (0:ℝ) ≤ g k * 15)
          (by linarith : (0:ℝ) ≤ 1 + Real.cos ((i : ℝ) / (cnt : ℝ) * 3 * π * 2 + g k * 15))]
  · rw [abs_le]
    constructor <;>
      nlinarith [mul_nonneg (by linarith : (0:ℝ) ≤ 0.5 - (g (k + 1) - 0.5)) hq0,
        mul_nonneg (by linarith : (0:ℝ) ≤ (g (k + 1) - 0.5) + 0.5) hq0, hq1]
  · rw [abs_le]
    constructor <;>
      nlinarith [mul_nonneg (by nlinarith : (0:ℝ) ≤ g k * 15)
          (by linarith : (0:ℝ) ≤ 1 - Real.sin ((i : ℝ) / (cnt : ℝ) * 3 * π * 2 + g k * 15)),
        mul_nonneg (by nlinarith : (0:ℝ) ≤ g k * 15)
          (by linarith : (0:ℝ) ≤ 1 + Real.sin ((i : ℝ) / (cnt : ℝ) * 3 * π * 2 + g k * 15))]

theorem genPoint_buddha_bounds (cnt : ℕ) (g : ℕ → ℝ)
    (hg : ∀ n, 0 ≤ g n ∧ g n < 1) (i k : ℕ) :
    |(genPoint .BUDDHA cnt g i k).1.x| ≤ 5 ∧ |(genPoint .BUDDHA cnt g i k).1.y| ≤ 6 ∧
      |(genPoint .BUDDHA cnt g i k).1.z| ≤ 3 := by
  rcases hb : buddhaLoop g k 20 with ⟨op, kn⟩
  cases op with
  | some p0 =>
      have hbb := buddhaLoop_bounds g hg 20 k p0 kn hb
      simp only [genPoint, hb]
      exact hbb
  | none =>
      simp only [genPoint, hb]
      have hn : Vec3.norm (randomInSphere 3 g kn).1 ≤ 3 :=
        norm_randomInSphere 3 (by norm_num) g hg kn
      have hx := le_trans (abs_x_le_norm (randomInSphere 3 g kn).1) hn
      have hy := le_trans (abs_y_le_norm (randomInSphere 3 g kn).1) hn
      have hz := le_trans (abs_z_le_norm (randomInSphere 3 g kn).1) hn
      exact ⟨by linarith, by linarith, by linarith⟩

theorem genPoint_inBounds (ty : ShapeType) (cnt : ℕ) (g : ℕ → ℝ)
    (hg : ∀ n, 0 ≤ g n ∧ g n < 1) (i k : ℕ) (hi : i < cnt) :
    inBoundingRegion ty cnt (genPoint ty cnt g i k).1 := by
  cases ty with
  | SPHERE =>
      show Vec3.norm (randomInSphere 10 g k).1 ≤ 10
      exact norm_randomInSphere 10 (by norm_num) g hg k
  | CUBE => exact genPoint_cube_bounds cnt g hg i k
  | HEART => exact genPoint_heart_bounds cnt g hg i k
  | FLOWER => exact genPoint_flower_bounds cnt g hg i k hi
  | SATURN => exact norm_saturnPoint g hg k
  | GALAXY => exact genPoint_galaxy_bounds cnt g hg i k
  | BUDDHA => exact genPoint_buddha_bounds cnt g hg i k

theorem genPoints_inBounds (ty : ShapeType) (cnt : ℕ) (g : ℕ → ℝ)
    (hg : ∀ n, 0 ≤ g n ∧ g n < 1) :
    ∀ n i k, i + n ≤ cnt → ∀ p ∈ genPoints ty cnt g n i k, inBoundingRegion ty cnt p := by
  intro n
  induction n with
  | zero =>
      intro i k hik p hp
      simp [genPoints] at hp
  | succ m ih =>
      intro i k hik p hp
      simp only [genPoints, List.mem_cons] at hp
      rcases hp with hp | hp
      · rw [hp]
        exact genPoint_inBounds ty cnt g hg i k (by omega)
      · exact ih (i + 1) _ (by omega) p hp

/-- C7: for every count and every supported shape kind the generator
produces exactly `3·count` array entries; the embedding is a pure
function of the count, the kind and the random oracle (so there are no
side effects, and over ℝ every entry is a well-defined real number); and
every generated point of every kind lies within the template's
documented bounding region (`inBoundingRegion`) — in particular, for the
SPHERE kind every point is within distance 10 of the origin. -/
theorem generateParticles_length_and_sphere_bound (cnt : ℕ) (g : ℕ → ℝ)
    (hg : ∀ n, 0 ≤ g n ∧ g n < 1) :
    (∀ ty : ShapeType, (generateParticles cnt ty g).length = 3 * cnt) ∧
    (∀ ty : ShapeType, ∀ p ∈ genPoints ty cnt g cnt 0 0, inBoundingRegion ty cnt p) ∧
    (∀ p ∈ genPoints .SPHERE cnt g cnt 0 0, Vec3.norm p ≤ 10) := by
  refine ⟨?_, ?_, ?_⟩
  · intro ty
    rw [generateParticles, flatten_length, genPoints_length]
  · intro ty
    exact genPoints_inBounds ty cnt g hg cnt 0 0 (by omega)
  · exact genPoints_sphere_norm cnt g hg cnt 0 0

/-- Witness for C7 with the constant oracle 1/2 and count 2. -/
theorem generateParticles_length_and_sphere_bound_witness :
    (∀ n : ℕ, 0 ≤ ((fun _ => (1 : ℝ) / 2) n) ∧ ((fun _ => (1 : ℝ) / 2) n) < 1) ∧
    (generateParticles 2 .SPHERE (fun _ => (1 : ℝ) / 2)).length = 3 * 2 := by
  have hg : ∀ n : ℕ, 0 ≤ ((fun _ => (1 : ℝ) / 2) n) ∧ ((fun _ => (1 : ℝ) / 2) n) < 1 :=
    fun n => by norm_num
  exact ⟨hg, (generateParticles_length_and_sphere_bound 2 (fun _ => (1 : ℝ) / 2) hg).1 .SPHERE⟩


theorem saturnRingSet_eq :
    {u : ℝ | u ∈ Set.Icc (0 : ℝ) 1 ∧ ¬ saturnIsPlanetBranch u} = Set.Icc (0 : ℝ) 0.4 := by
  ext u
  simp only [Set.mem_setOf_eq, Set.mem_Icc, saturnIsPlanetBranch, not_lt]
  constructor
  · rintro ⟨⟨h0, _⟩, h4⟩
    exact ⟨h0, h4⟩
  · rintro ⟨h0, h4⟩
    exact ⟨⟨h0, le_trans h4 (by norm_num)⟩, h4⟩

theorem saturnRingSet_volume :
    MeasureTheory.volume {u : ℝ | u ∈ Set.Icc (0 : ℝ) 1 ∧ ¬ saturnIsPlanetBranch u} =
      ENNReal.ofReal 0.4 := by
  rw [saturnRingSet_eq, Real.volume_Icc]
  norm_num

/-- C8 counterexample: the claim puts the SATURN particle on the ring with
probability 0.6, but the code's branch draw (`Math.random() > 0.4` means
planet body) sends a uniform draw in [0, 1] to the ring only on the set
[0, 0.4], of Lebesgue measure 0.4 — and 0.4 ≠ 0.6. -/
theorem saturn_ring_probability_counterexample :
    MeasureTheory.volume {u : ℝ | u ∈ Set.Icc (0 : ℝ) 1 ∧ ¬ saturnIsPlanetBranch u} =
      ENNReal.ofReal 0.4 ∧
    ENNReal.ofReal (0.4 : ℝ) ≠ ENNReal.ofReal (0.6 : ℝ) := by
  refine ⟨saturnRingSet_volume, fun hEq => ?_⟩
  rw [ENNReal.ofReal_eq_ofReal_iff (by norm_num) (by norm_num)] at hEq
  norm_num at hEq

/-- C8 amended: per particle the SATURN generator places the point inside
the planet body (a sphere of radius 4) when the branch draw exceeds 0.4 —
probability 0.6 — and otherwise, with probability 0.4 (the branch-draw
set has measure 0.4), on the tilted ring: ring radius `6 + rand·6` in
[6, 12], vertical jitter in [-1/4, 1/4], rotated about the normalised
(1, 0, 1) axis by π/6 (30°). -/
theorem saturn_branch_spec (g : ℕ → ℝ) (k : ℕ) (hg : ∀ n, 0 ≤ g n ∧ g n < 1) :
    MeasureTheory.volume {u : ℝ | u ∈ Set.Icc (0 : ℝ) 1 ∧ ¬ saturnIsPlanetBranch u} =
      ENNReal.ofReal 0.4 ∧
    (saturnIsPlanetBranch (g k) → Vec3.norm (saturnPoint g k).1 ≤ 4) ∧
    (¬ saturnIsPlanetBranch (g k) →
      6 ≤ 6 + g (k + 1) * 6 ∧ 6 + g (k + 1) * 6 ≤ 12 ∧
      |(g (k + 3) - 0.5) * 0.5| ≤ 0.25 ∧
      (saturnPoint g k).1 = axisAngleRotate saturnAxis (π / 6)
        ⟨(6 + g (k + 1) * 6) * Real.cos (g (k + 2) * π * 2), (g (k + 3) - 0.5) * 0.5,
          (6 + g (k + 1) * 6) * Real.sin (g (k + 2) * π * 2)⟩) := by
  refine ⟨saturnRingSet_volume, fun hb => ?_, fun hb => ?_⟩
  · rw [saturnPoint, if_pos hb]
    exact norm_randomInSphere 4 (by norm_num) g hg (k + 1)
  · obtain ⟨h10, h11⟩ := hg (k + 1)
    obtain ⟨h30, h31⟩ := hg (k + 3)
    refine ⟨by nlinarith, by nlinarith, ?_, ?_⟩
    · rw [abs_le]
      constructor <;> nlinarith
    · rw [saturnPoint, if_neg hb]
      rfl

/-- Witness for C8 (amended) with the constant oracle 1/2, which takes the
planet branch. -/
theorem saturn_branch_spec_witness :
    (∀ n : ℕ, 0 ≤ ((fun _ => (1 : ℝ) / 2) n) ∧ ((fun _ => (1 : ℝ) / 2) n) < 1) ∧
    saturnIsPlanetBranch ((1 : ℝ) / 2) ∧
    Vec3.norm (saturnPoint (fun _ => (1 : ℝ) / 2) 0).1 ≤ 4 := by
  have hg : ∀ n : ℕ, 0 ≤ ((fun _ => (1 : ℝ) / 2) n) ∧ ((fun _ => (1 : ℝ) / 2) n) < 1 :=
    fun n => by norm_num
  have hb : saturnIsPlanetBranch ((1 : ℝ) / 2) := by
    rw [saturnIsPlanetBranch]; norm_num
  exact ⟨hg, hb, (saturn_branch_spec (fun _ => (1 : ℝ) / 2) 0 hg).2.1 hb⟩


/-- Per-hand sample consumed by the simulator (`HandData.left/right`). -/
structure Hand where
  x : ℝ
  y : ℝ
  z : ℝ
  isOpen : Bool
  isPinched : Bool

/-- The `handDataRef.current` snapshot read at the start of a tick. -/
structure FrameInput where
  left : Option Hand
  right : Option Hand
  gesture : Gesture
  centerX : ℝ
  centerY : ℝ
  centerZ : ℝ
  distance : ℝ
  rotation : ℝ

/-- Mutable `simState` of `ParticleSystem` (src/unnamed/part_002, lines
20-31). -/
structure SimState where
  explosionTime : ℝ
  planetMode : Bool
  planetCenter : Vec3
  time : ℝ
  targetScale : ℝ
  currentScale : ℝ
  targetRotationY : ℝ
  currentRotationY : ℝ
  targetRotationZ : ℝ
  currentRotationZ : ℝ

/-- `simState` initial value: explosion sentinel -100 far in the past, no
planet mode, time 0, identity transform. -/
def initSimState : SimState :=
  { explosionTime := -100
    planetMode := false
    planetCenter := ⟨0, 0, 0⟩
    time := 0
    targetScale := 1
    currentScale := 1
    targetRotationY := 0
    currentRotationY := 0
    targetRotationZ := 0
    currentRotationZ := 0 }

/-- One particle's slice of the `positions`/`velocities` buffers. -/
structure Particle where
  pos : Vec3
  vel : Vec3

/-- THREE.Vector3.lerp: move `v` toward `target` by fraction `alpha`. -/
def lerpVec (v target : Vec3) (alpha : ℝ) : Vec3 :=
  ⟨v.x + (target.x - v.x) * alpha, v.y + (target.y - v.y) * alpha,
    v.z + (target.z - v.z) * alpha⟩

/-- CONTROL-mode transform section of `useFrame` (src/unnamed/part_002,
lines 74-100): target scale/rotation from the hand snapshot, then the
exponential interpolation of the current values. -/
def controlUpdate (inp : FrameInput) (clampedDelta : ℝ) (s : SimState) : SimState :=
  let s1 :=
    if inp.gesture = .CONTROL then
      let normalizedDist := (inp.distance - 5) / 15
      let scaleFactor := 0.4 + normalizedDist * 2.2
      let deadzone : ℝ := 1.5
      let rotY :=
        if |inp.centerX| > deadzone then
          ((inp.centerX - Real.sign inp.centerX * deadzone) / 12) * π
        else 0
      { s with targetScale := max 0.3 (min 3.0 scaleFactor)
               targetRotationY := max (-π) (min π rotY)
               targetRotationZ := inp.rotation * 0.8 }
    else s
  let baseLerp := clampedDelta * 4
  let controlLerp := if inp.gesture = .CONTROL then baseLerp * 1.5 else baseLerp * 0.5
  { s1 with
      currentScale := s1.currentScale + (s1.targetScale - s1.currentScale) * controlLerp
      currentRotationY :=
        s1.currentRotationY + (s1.targetRotationY - s1.currentRotationY) * controlLerp
      currentRotationZ :=
        s1.currentRotationZ + (s1.targetRotationZ - s1.currentRotationZ) * controlLerp }

/-- Rotation about the y axis (column-vector convention). -/
def rotYMat (a : ℝ) (v : Vec3) : Vec3 :=
  ⟨v.x * Real.cos a + v.z * Real.sin a, v.y, -(v.x) * Real.sin a + v.z * Real.cos a⟩

/-- Rotation about the z axis (column-vector convention). -/
def rotZMat (a : ℝ) (v : Vec3) : Vec3 :=
  ⟨v.x * Real.cos a - v.y * Real.sin a, v.x * Real.sin a + v.y * Real.cos a, v.z⟩

/-- Source `getLocalHandPos`: the inverse of the points object's world
transform `matrixWorld = R(0, currentRotationY, currentRotationZ) · S`
(three.js XYZ Euler order, uniform scale), i.e. scale division after the
inverse rotations. Division by a zero scale is plain ℝ division (the
CONTROL clamp keeps the scale ≥ 0.3 in operation, and the claims below never
hit a zero scale with a present hand). -/
def getLocalHandPos (s : SimState) (h : Vec3) : Vec3 :=
  Vec3.smul (1 / s.currentScale)
    (rotZMat (-s.currentRotationZ) (rotYMat (-s.currentRotationY) h))

/-- Game-logic section of `useFrame` (src/unnamed/part_002, lines
123-148): planet-mode activation on CIRCLE, smooth planet-centre
tracking, planet-mode exit on EXPAND/COMPRESS, and the cooldown-gated
explosion trigger on COLLAPSE. `s.time` has already been advanced by the
frame's delta. -/
def modeUpdate (gesture : Gesture) (centerPos : Vec3) (clampedDelta : ℝ)
    (s : SimState) : SimState :=
  let s1 :=
    if gesture = .CIRCLE ∧ s.planetMode = false then
      { s with planetMode := true, planetCenter := centerPos }
    else s
  let s2 :=
    if gesture = .CIRCLE ∧ s1.planetMode = true then
      { s1 with planetCenter := lerpVec s1.planetCenter centerPos (clampedDelta * 4) }
    else s1
  let s3 :=
    if gesture ≠ .CIRCLE ∧ s2.planetMode = true then
      if gesture = .EXPAND ∨ gesture = .COMPRESS then { s2 with planetMode := false }
      else s2
    else s2
  if gesture = .COLLAPSE ∧ s3.time - s3.explosionTime > 1.5 then
    { s3 with explosionTime := s3.time, planetMode := false }
  else s3

/-- Velocity clamp of the particle loop (src/unnamed/part_002, lines
357-365). -/
def clampVel (maxVel : ℝ) (v : Vec3) : Vec3 :=
  let velMag := Real.sqrt (v.x * v.x + v.y * v.y + v.z * v.z)
  if velMag > maxVel then
    let scale := maxVel / velMag
    ⟨v.x * scale, v.y * scale, v.z * scale⟩
  else v

/-- Main gravitational pull of planet mode (src/unnamed/part_002, lines
191-215): the pull target is `(planetCenter.x, planetCenter.y, 0)` — the
z component of the tracked planet centre is replaced by the scene plane
z = 0. -/
def planetMainPull (planetCenter : Vec3) (pos : Vec3) (clampedDelta : ℝ) : Vec3 :=
  let planetX := planetCenter.x
  let planetY := planetCenter.y
  let planetZ : ℝ := 0
  let dx := planetX - pos.x
  let dy := planetY - pos.y
  let dz := planetZ - pos.z
  let d := Real.sqrt (dx * dx + dy * dy + dz * dz) + 0.001
  let pullStrength := 200 * clampedDelta
  let pullForce := pullStrength / (d + 0.5)
  ⟨dx / d * pullForce, dy / d * pullForce, dz / d * pullForce⟩

/-- Planet-mode velocity increments (src/unnamed/part_002, lines 189-263):
the main pull (`planetMainPull`), the volume-fill distribution inside the
target radius with the centre push-out, the extra pull outside, the
gentle swirl, the z spread and the bounded noise. `d` recomputes the same
distance used by `planetMainPull`. (The source's `particlePhase` and
`particleLayer`, lines 206-207, are computed but never read and are
omitted.) -/
def planetForces (planetCenter : Vec3) (i : ℕ) (time clampedDelta : ℝ)
    (rnd : ℕ → ℝ) (pos v : Vec3) : Vec3 :=
  let planetX := planetCenter.x
  let planetY := planetCenter.y
  let planetZ : ℝ := 0
  let dx := planetX - pos.x
  let dy := planetY - pos.y
  let dz := planetZ - pos.z
  let d := Real.sqrt (dx * dx + dy * dy + dz * dz) + 0.001
  let targetRadius : ℝ := 5
  let v1 := Vec3.add v (planetMainPull planetCenter pos clampedDelta)
  let v2 :=
    if d < targetRadius then
      let distributeForce := 5 * clampedDelta
      let randX := Real.sin ((i : ℝ) * 1.1 + time * 0.5)
      let randY := Real.cos ((i : ℝ) * 1.3 + time * 0.3)
      let randZ := Real.sin ((i : ℝ) * 1.7 + time * 0.4)
      let va : Vec3 := ⟨v1.x + randX * distributeForce, v1.y + randY * distributeForce,
        v1.z + randZ * distributeForce⟩
      if d < targetRadius * 0.2 then
        let pushOut := 30 * clampedDelta
        ⟨va.x - dx / d * pushOut, va.y - dy / d * pushOut, va.z - dz / d * pushOut⟩
      else va
    else
      let extraPull := 100 * clampedDelta / (d + 1)
      ⟨v1.x + dx / d * extraPull, v1.y + dy / d * extraPull, v1.z + dz / d * extraPull⟩
  let gentleSwirl := 3 * clampedDelta
  let v3 : Vec3 := ⟨v2.x + -dy * gentleSwirl * 0.1, v2.y + dx * gentleSwirl * 0.1, v2.z⟩
  let zSpread := (Real.sin ((i : ℝ) * 0.1 + time) * 0.5 + 0.5) * targetRadius
  let targetZ := planetZ + (zSpread - targetRadius * 0.5)
  let zDiff := targetZ - pos.z
  let v4 : Vec3 := ⟨v3.x, v3.y, v3.z + zDiff * 3 * clampedDelta⟩
  let noise := 2 * clampedDelta
  ⟨v4.x + (rnd 0 - 0.5) * noise, v4.y + (rnd 1 - 0.5) * noise, v4.z + (rnd 2 - 0.5) * noise⟩

/-- COMPRESS pull toward the hand midpoint (src/unnamed/part_002, lines
264-276). -/
def compressForce (centerPos : Vec3) (clampedDelta : ℝ) (pos v : Vec3) : Vec3 :=
  let dx := centerPos.x - pos.x
  let dy := centerPos.y - pos.y
  let dz := centerPos.z - pos.z
  let d := Real.sqrt (dx * dx + dy * dy + dz * dz) + 0.1
  let pullForce := 50 * clampedDelta / (d + 0.3)
  ⟨v.x + dx * pullForce, v.y + dy * pullForce, v.z + dz * pullForce⟩

/-- EXPAND scatter away from the hand midpoint (src/unnamed/part_002,
lines 277-293). -/
def expandForce (centerPos : Vec3) (clampedDelta : ℝ) (rnd : ℕ → ℝ)
    (pos v : Vec3) : Vec3 :=
  let dx := pos.x - centerPos.x
  let dy := pos.y - centerPos.y
  let dz := pos.z - centerPos.z
  let d := Real.sqrt (dx * dx + dy * dy + dz * dz) + 0.1
  let pushForce := 35 * clampedDelta
  let va : Vec3 := ⟨v.x + dx / d * pushForce, v.y + dy / d * pushForce,
    v.z + dz / d * pushForce⟩
  ⟨va.x + (rnd 0 - 0.5) * 15 * clampedDelta, va.y + (rnd 1 - 0.5) * 15 * clampedDelta,
    va.z + (rnd 2 - 0.5) * 15 * clampedDelta⟩

/-- IDLE per-hand influence (src/unnamed/part_002, lines 294-330):
attraction when pinched, mild repulsion when open, with linear falloff at
the interaction radius. -/
def handForce (hPos : Vec3) (pinched : Bool) (interactionRadius clampedDelta : ℝ)
    (pos v : Vec3) : Vec3 :=
  let dx := hPos.x - pos.x
  let dy := hPos.y - pos.y
  let dz := hPos.z - pos.z
  let d := Real.sqrt (dx * dx + dy * dy + dz * dz) + 0.1
  if d < interactionRadius then
    let baseForce : ℝ := if pinched then 25.0 else -8.0
    let falloff := max 0 (1 - d / interactionRadius)
    let f := baseForce * falloff * clampedDelta / (d + 0.3)
    ⟨v.x + dx * f, v.y + dy * f, v.z + dz * f⟩
  else v

/-- Explosion shockwave overlay (src/unnamed/part_002, lines 332-355). -/
def explosionForce (centerPos : Vec3) (explosionAge clampedDelta : ℝ)
    (rnd : ℕ → ℝ) (pos v : Vec3) : Vec3 :=
  let dx := pos.x - centerPos.x
  let dy := pos.y - centerPos.y
  let dz := pos.z - centerPos.z
  let d := Real.sqrt (dx * dx + dy * dy + dz * dz) + 0.001
  let waveRadius := explosionAge * 25
  let waveWidth : ℝ := 6
  let distToWave := |d - waveRadius|
  if distToWave < waveWidth then
    let waveFalloff := 1 - distToWave / waveWidth
    let blast := 120 * clampedDelta * waveFalloff / (d + 0.5)
    let va : Vec3 := ⟨v.x + dx / d * blast, v.y + dy / d * blast, v.z + dz / d * blast⟩
    let turbulence := 40 * clampedDelta * waveFalloff
    ⟨va.x + (rnd 3 - 0.5) * turbulence, va.y + (rnd 4 - 0.5) * turbulence,
      va.z + (rnd 5 - 0.5) * turbulence⟩
  else v

/-- Per-particle body of the frame loop (src/unnamed/part_002, lines
164-378): damping, the IDLE shape-holding force, the primary regime
(planet / compress / expand / idle hand influence, an `else if` chain),
the explosion overlay, the velocity clamp and the position integration.
The frame's `Math.random()` draws come from the per-tick oracle `rnd`. -/
def updateParticle (damping returnForce : ℝ) (rest : Vec3) (gesture : Gesture)
    (planetMode : Bool) (planetCenter : Vec3) (time : ℝ) (i : ℕ)
    (lPos rPos : Option Vec3) (leftPinched rightPinched : Bool) (centerPos : Vec3)
    (interactionRadius explosionAge clampedDelta : ℝ) (rnd : ℕ → ℝ)
    (p : Particle) : Particle :=
  let anyPinched := leftPinched || rightPinched
  let v1 := Vec3.smul damping p.vel
  let v2 :=
    if planetMode = false ∧ ¬ (explosionAge < 2.0 ∧ explosionAge > 0) ∧ gesture = .IDLE then
      Vec3.add v1 (Vec3.smul (returnForce * 0.6) (Vec3.sub rest p.pos))
    else v1
  let v3 :=
    if planetMode = true ∧ gesture = .CIRCLE then
      planetForces planetCenter i time clampedDelta rnd p.pos v2
    else if gesture = .COMPRESS ∧ anyPinched = true then
      compressForce centerPos clampedDelta p.pos v2
    else if gesture = .EXPAND then
      expandForce centerPos clampedDelta rnd p.pos v2
    else if gesture = .IDLE then
      let va :=
        match lPos with
        | some hp => handForce hp leftPinched interactionRadius clampedDelta p.pos v2
        | none => v2
      match rPos with
      | some hp => handForce hp rightPinched interactionRadius clampedDelta p.pos va
      | none => va
    else v2
  let v4 :=
    if explosionAge < 2.0 ∧ explosionAge > 0 then
      explosionForce centerPos explosionAge clampedDelta rnd p.pos v3
    else v3
  let v5 := clampVel 2.5 v4
  { pos := Vec3.add p.pos v5, vel := v5 }

/-- One simulator frame: the `useFrame` body (src/unnamed/part_002, lines
64-382) for a single particle of index `i` — the per-particle loop is
independent across particles, so the embedding carries one particle next
to the shared mode state. `inp.centerZ` stands for `centerZ || 0` (both
are 0 when absent). -/
def simStep (friction : ℝ) (rest : Vec3) (i : ℕ) (rnd : ℕ → ℝ) (inp : FrameInput)
    (delta : ℝ) (st : SimState × Particle) : SimState × Particle :=
  let s0 := { st.1 with time := st.1.time + delta }
  let clampedDelta := min delta 0.05
  let s2 := controlUpdate inp clampedDelta s0
  let lPos := inp.left.map fun h => getLocalHandPos s2 ⟨h.x, h.y, h.z⟩
  let rPos := inp.right.map fun h => getLocalHandPos s2 ⟨h.x, h.y, h.z⟩
  let centerPos := getLocalHandPos s2 ⟨inp.centerX, inp.centerY, inp.centerZ⟩
  let baseInteractionRadius : ℝ := 12
  let interactionRadius := baseInteractionRadius / s2.currentScale
  let s3 := modeUpdate inp.gesture centerPos clampedDelta s2
  let explosionAge := s3.time - s3.explosionTime
  let damping := friction
  let returnForce := 0.5 * clampedDelta
  let leftPinched := (inp.left.map Hand.isPinched).getD false
  let rightPinched := (inp.right.map Hand.isPinched).getD false
  (s3, updateParticle damping returnForce rest inp.gesture s3.planetMode s3.planetCenter
    s3.time i lPos rPos leftPinched rightPinched centerPos interactionRadius
    explosionAge clampedDelta rnd st.2)

/-- Iterated simulator frames with per-tick inputs, deltas and oracles. -/
def simIter (friction : ℝ) (rest : Vec3) (i : ℕ) (rnds : ℕ → ℕ → ℝ)
    (inps : ℕ → FrameInput) (deltas : ℕ → ℝ) (st : SimState × Particle) :
    ℕ → SimState × Particle
  | 0 => st
  | n + 1 =>
      simStep friction rest i (rnds n) (inps n) (deltas n)
        (simIter friction rest i rnds inps deltas st n)


theorem norm_clampVel_le (maxVel : ℝ) (hmv : 0 ≤ maxVel) (v : Vec3) :
    Vec3.norm (clampVel maxVel v) ≤ maxVel := by
  simp only [clampVel]
  split
  · rename_i hgt
    have hm0 : (0 : ℝ) ≤ Real.sqrt (v.x * v.x + v.y * v.y + v.z * v.z) := Real.sqrt_nonneg _
    have hmpos : 0 < Real.sqrt (v.x * v.x + v.y * v.y + v.z * v.z) := lt_of_le_of_lt hmv hgt
    unfold Vec3.norm
    have hsq : (v.x * (maxVel / Real.sqrt (v.x * v.x + v.y * v.y + v.z * v.z))) ^ 2 +
        (v.y * (maxVel / Real.sqrt (v.x * v.x + v.y * v.y + v.z * v.z))) ^ 2 +
        (v.z * (maxVel / Real.sqrt (v.x * v.x + v.y * v.y + v.z * v.z))) ^ 2 =
        (maxVel / Real.sqrt (v.x * v.x + v.y * v.y + v.z * v.z)) ^ 2 *
          (v.x * v.x + v.y * v.y + v.z * v.z) := by ring
    rw [hsq, Real.sqrt_mul (sq_nonneg _), Real.sqrt_sq_eq_abs,
      abs_of_nonneg (div_nonneg hmv hm0), div_mul_cancel₀ _ (ne_of_gt hmpos)]
  · rename_i hle
    push_neg at hle
    unfold Vec3.norm
    calc Real.sqrt (v.x ^ 2 + v.y ^ 2 + v.z ^ 2)
        = Real.sqrt (v.x * v.x + v.y * v.y + v.z * v.z) := by ring_nf
      _ ≤ maxVel := hle

/-- C2: after the per-frame update completes, the particle's velocity
magnitude never exceeds the configured maximum 2.5 — for every particle
index, every frame input (gesture, hands, elapsed time), every mode
state, every friction value and every noise oracle, however large the
force increments accumulated earlier in the tick were. -/
theorem velocity_clamp_invariant (friction : ℝ) (rest : Vec3) (i : ℕ)
    (rnd : ℕ → ℝ) (inp : FrameInput) (delta : ℝ) (st : SimState × Particle) :
    Vec3.norm (simStep friction rest i rnd inp delta st).2.vel ≤ 2.5 := by
  show Vec3.norm (clampVel 2.5 _) ≤ 2.5
  exact norm_clampVel_le 2.5 (by norm_num) _


/-- C10: the main planet-mode gravitational pull is directed toward
`(planetCenter.x, planetCenter.y, 0)`: the z component of the smoothed
planet centre is ignored (replacing it changes nothing), and the pull is
a nonnegative multiple of the vector from the particle to that z = 0
target. -/
theorem planet_pull_targets_z_zero (c c2 p : Vec3) (dt : ℝ)
    (hx : c.x = c2.x) (hy : c.y = c2.y) (hdt : 0 ≤ dt) :
    planetMainPull c p dt = planetMainPull c2 p dt ∧
    ∃ k : ℝ, 0 ≤ k ∧
      planetMainPull c p dt = Vec3.smul k (Vec3.sub ⟨c.x, c.y, 0⟩ p) := by
  constructor
  · unfold planetMainPull
    rw [hx, hy]
  · simp only [planetMainPull, Vec3.smul, Vec3.sub]
    set d := Real.sqrt ((c.x - p.x) * (c.x - p.x) + (c.y - p.y) * (c.y - p.y) +
      (0 - p.z) * (0 - p.z)) + 0.001 with hd
    have hs0 : (0 : ℝ) ≤ Real.sqrt ((c.x - p.x) * (c.x - p.x) + (c.y - p.y) * (c.y - p.y) +
        (0 - p.z) * (0 - p.z)) := Real.sqrt_nonneg _
    have hdpos : 0 < d := by rw [hd]; linarith
    refine ⟨200 * dt / (d + 0.5) / d, ?_, ?_⟩
    · have hnum : (0 : ℝ) ≤ 200 * dt := by linarith
      have hden : (0 : ℝ) ≤ d + 0.5 := by linarith
      exact div_nonneg (div_nonneg hnum hden) (le_of_lt hdpos)
    · rw [Vec3.mk.injEq]
      refine ⟨by ring, by ring, by ring⟩

/-- Witness for C10 at a concrete planet centre, particle and delta. -/
theorem planet_pull_targets_z_zero_witness :
    planetMainPull ⟨1, 2, 3⟩ ⟨4, 5, 6⟩ 1 = planetMainPull ⟨1, 2, -7⟩ ⟨4, 5, 6⟩ 1 ∧
    ∃ k : ℝ, 0 ≤ k ∧ planetMainPull ⟨1, 2, 3⟩ ⟨4, 5, 6⟩ 1 =
      Vec3.smul k (Vec3.sub ⟨1, 2, 0⟩ ⟨4, 5, 6⟩) :=
  planet_pull_targets_z_zero ⟨1, 2, 3⟩ ⟨1, 2, -7⟩ ⟨4, 5, 6⟩ 1 rfl rfl (by norm_num)


/-- A COLLAPSE frame with no hands (the committed gesture is part of the
snapshot the simulator reads). -/
def collapseInput : FrameInput :=
  { left := none, right := none, gesture := .COLLAPSE, centerX := 0, centerY := 0,
    centerZ := 0, distance := 0, rotation := 0 }

theorem controlUpdate_fields (inp : FrameInput) (cd : ℝ) (s : SimState) :
    (controlUpdate inp cd s).time = s.time ∧
    (controlUpdate inp cd s).explosionTime = s.explosionTime ∧
    (controlUpdate inp cd s).planetMode = s.planetMode ∧
    (controlUpdate inp cd s).planetCenter = s.planetCenter := by
  simp only [controlUpdate]
  split
  all_goals exact ⟨rfl, rfl, rfl, rfl⟩

theorem modeUpdate_time (g : Gesture) (c : Vec3) (cd : ℝ) (s : SimState) :
    (modeUpdate g c cd s).time = s.time := by
  simp only [modeUpdate]
  repeat' split
  all_goals rfl

theorem modeUpdate_idle (c : Vec3) (cd : ℝ) (s : SimState) :
    modeUpdate .IDLE c cd s = s := by
  simp only [modeUpdate]
  simp

theorem modeUpdate_collapse (c : Vec3) (cd : ℝ) (s : SimState) :
    (s.time - s.explosionTime > 1.5 →
      (modeUpdate .COLLAPSE c cd s).explosionTime = s.time ∧
      (modeUpdate .COLLAPSE c cd s).planetMode = false) ∧
    (¬ (s.time - s.explosionTime > 1.5) → modeUpdate .COLLAPSE c cd s = s) := by
  simp only [modeUpdate]
  simp
  constructor
  · intro h
    rw [if_pos h]
    exact ⟨rfl, rfl⟩
  · intro h hgt
    linarith

theorem simStep_fst (friction : ℝ) (rest : Vec3) (i : ℕ) (rnd : ℕ → ℝ)
    (inp : FrameInput) (delta : ℝ) (st : SimState × Particle) :
    (simStep friction rest i rnd inp delta st).1 =
      modeUpdate inp.gesture
        (getLocalHandPos
          (controlUpdate inp (min delta 0.05) { st.1 with time := st.1.time + delta })
          ⟨inp.centerX, inp.centerY, inp.centerZ⟩)
        (min delta 0.05)
        (controlUpdate inp (min delta 0.05) { st.1 with time := st.1.time + delta }) := rfl

theorem simStep_collapse_state (friction : ℝ) (rest : Vec3) (i : ℕ) (rnd : ℕ → ℝ)
    (inp : FrameInput) (delta : ℝ) (st : SimState × Particle)
    (hg : inp.gesture = .COLLAPSE) :
    (simStep friction rest i rnd inp delta st).1.time = st.1.time + delta ∧
    (st.1.time + delta - st.1.explosionTime > 1.5 →
      (simStep friction rest i rnd inp delta st).1.explosionTime = st.1.time + delta ∧
      (simStep friction rest i rnd inp delta st).1.planetMode = false) ∧
    (¬ (st.1.time + delta - st.1.explosionTime > 1.5) →
      (simStep friction rest i rnd inp delta st).1.explosionTime = st.1.explosionTime ∧
      (simStep friction rest i rnd inp delta st).1.planetMode = st.1.planetMode) := by
  rw [simStep_fst friction rest i rnd inp delta st, hg]
  obtain ⟨hct, hce, hcp, _⟩ :=
    controlUpdate_fields inp (min delta 0.05) { st.1 with time := st.1.time + delta }
  set ct := controlUpdate inp (min delta 0.05) { st.1 with time := st.1.time + delta }
  have hct' : ct.time = st.1.time + delta := hct
  have hce' : ct.explosionTime = st.1.explosionTime := hce
  have hcp' : ct.planetMode = st.1.planetMode := hcp
  set cp := getLocalHandPos ct ⟨inp.centerX, inp.centerY, inp.centerZ⟩
  obtain ⟨htrig, hcool⟩ := modeUpdate_collapse cp (min delta 0.05) ct
  refine ⟨?_, fun h => ?_, fun h => ?_⟩
  · rw [modeUpdate_time, hct']
  · have h2 : ct.time - ct.explosionTime > 1.5 := by rw [hct', hce']; exact h
    obtain ⟨he, hp⟩ := htrig h2
    exact ⟨by rw [he, hct'], hp⟩
  · have h2 : ¬ (ct.time - ct.explosionTime > 1.5) := by rw [hct', hce']; exact h
    rw [hcool h2]
    exact ⟨hce', hcp'⟩

/-- C4: explosion triggering is rate-limited by the 1.5 s cooldown. If a
COLLAPSE frame starts an explosion (setting `explosionTime` to the
frame's accumulated time), a further COLLAPSE frame arriving while less
than 1.5 simulated seconds have elapsed since that update (its delta is
below 1.5) leaves `explosionTime` unchanged: the two frames cause exactly
one `explosionTime` update. -/
theorem collapse_cooldown_single_trigger (friction : ℝ) (rest : Vec3) (i : ℕ)
    (rnd1 rnd2 : ℕ → ℝ) (inp1 inp2 : FrameInput) (delta1 delta2 : ℝ)
    (st : SimState × Particle)
    (hg1 : inp1.gesture = .COLLAPSE) (hg2 : inp2.gesture = .COLLAPSE)
    (htrig : st.1.time + delta1 - st.1.explosionTime > 1.5)
    (hcool : delta2 < 1.5) :
    (simStep friction rest i rnd1 inp1 delta1 st).1.explosionTime = st.1.time + delta1 ∧
    (simStep friction rest i rnd2 inp2 delta2
        (simStep friction rest i rnd1 inp1 delta1 st)).1.explosionTime =
      st.1.time + delta1 ∧
    (∀ (rndj : ℕ → ℝ) (inpj : FrameInput) (deltaj : ℝ) (stj : SimState × Particle),
      inpj.gesture = .COLLAPSE →
      stj.1.time + deltaj - stj.1.explosionTime < 1.5 →
      (simStep friction rest i rndj inpj deltaj stj).1.explosionTime =
        stj.1.explosionTime) := by
  obtain ⟨ht1, htr1, _⟩ := simStep_collapse_state friction rest i rnd1 inp1 delta1 st hg1
  obtain ⟨he1, _⟩ := htr1 htrig
  set st1 := simStep friction rest i rnd1 inp1 delta1 st
  obtain ⟨_, _, hco2⟩ := simStep_collapse_state friction rest i rnd2 inp2 delta2 st1 hg2
  have hnot : ¬ (st1.1.time + delta2 - st1.1.explosionTime > 1.5) := by
    rw [ht1, he1]
    intro hgt
    have harith : st.1.time + delta1 + delta2 - (st.1.time + delta1) = delta2 := by ring
    rw [harith] at hgt
    linarith
  obtain ⟨he2, _⟩ := hco2 hnot
  refine ⟨he1, by rw [he2, he1], fun rndj inpj deltaj stj hgj hltj => ?_⟩
  obtain ⟨_, _, hcoj⟩ := simStep_collapse_state friction rest i rndj inpj deltaj stj hgj
  exact (hcoj (by linarith)).1

/-- Witness for C4: from the initial simulator state, a COLLAPSE frame at
delta 1 triggers (time 1, sentinel -100), and a second COLLAPSE frame at
delta 1 lies inside the cooldown window, so `explosionTime` stays 1. -/
theorem collapse_cooldown_single_trigger_witness :
    (simStep 0.96 ⟨0, 0, 0⟩ 0 (fun _ => 0) collapseInput 1
        (initSimState, ⟨⟨0, 0, 0⟩, ⟨0, 0, 0⟩⟩)).1.explosionTime = 0 + 1 ∧
    (simStep 0.96 ⟨0, 0, 0⟩ 0 (fun _ => 0) collapseInput 1
        (simStep 0.96 ⟨0, 0, 0⟩ 0 (fun _ => 0) collapseInput 1
          (initSimState, ⟨⟨0, 0, 0⟩, ⟨0, 0, 0⟩⟩))).1.explosionTime = 0 + 1 := by
  have h := collapse_cooldown_single_trigger 0.96 ⟨0, 0, 0⟩ 0 (fun _ => 0) (fun _ => 0)
    collapseInput collapseInput 1 1 (initSimState, ⟨⟨0, 0, 0⟩, ⟨0, 0, 0⟩⟩)
    rfl rfl (by rw [initSimState]; norm_num) (by norm_num)
  exact ⟨h.1, h.2.1⟩


/-- A reachable-shape mode state inside the cooldown window with planet
mode active: previous explosion triggered at time 0.5, current time 1. -/
def cexState : SimState :=
  { initSimState with time := 1, explosionTime := 0.5, planetMode := true }

/-- C5 counterexample: processing a COLLAPSE frame (delta 0.05) from a
state whose previous explosion is only 0.55 simulated seconds old leaves
`planetMode` true after the mode-transition logic — COLLAPSE clears
planet mode only inside the cooldown-gated explosion trigger, so the
clearing is not unconditional. -/
theorem collapse_planet_clear_counterexample :
    collapseInput.gesture = .COLLAPSE ∧
    cexState.planetMode = true ∧
    (simStep 0.96 ⟨0, 0, 0⟩ 0 (fun _ => 0) collapseInput 0.05
      (cexState, ⟨⟨0, 0, 0⟩, ⟨0, 0, 0⟩⟩)).1.planetMode = true := by
  refine ⟨rfl, rfl, ?_⟩
  obtain ⟨_, _, hco⟩ := simStep_collapse_state 0.96 ⟨0, 0, 0⟩ 0 (fun _ => 0)
    collapseInput 0.05 (cexState, ⟨⟨0, 0, 0⟩, ⟨0, 0, 0⟩⟩) rfl
  have hnot : ¬ (cexState.time + 0.05 - cexState.explosionTime > 1.5) := by
    norm_num [cexState, initSimState]
  obtain ⟨_, hp⟩ := hco hnot
  rw [hp]
  rfl

/-- C5 amended: a frame whose committed gesture is COLLAPSE clears
`planetMode` exactly when the explosion cooldown has elapsed (more than
1.5 simulated seconds since the previous trigger, measured after the
frame's time accumulation — the same condition that starts the new
explosion); a COLLAPSE frame within the cooldown leaves `planetMode`
unchanged. -/
theorem collapse_clears_planet_iff_cooldown (friction : ℝ) (rest : Vec3) (i : ℕ)
    (rnd : ℕ → ℝ) (inp : FrameInput) (delta : ℝ) (st : SimState × Particle)
    (hg : inp.gesture = .COLLAPSE) :
    (st.1.time + delta - st.1.explosionTime > 1.5 →
      (simStep friction rest i rnd inp delta st).1.planetMode = false) ∧
    (¬ (st.1.time + delta - st.1.explosionTime > 1.5) →
      (simStep friction rest i rnd inp delta st).1.planetMode = st.1.planetMode) := by
  obtain ⟨_, htr, hco⟩ := simStep_collapse_state friction rest i rnd inp delta st hg
  exact ⟨fun h => (htr h).2, fun h => (hco h).2⟩

/-- Witness for C5 (amended): a COLLAPSE frame from the initial state
(sentinel -100, cooldown long elapsed) clears planet mode; a COLLAPSE
frame from the within-cooldown state keeps the previous planet mode. -/
theorem collapse_clears_planet_iff_cooldown_witness :
    (simStep 0.96 ⟨0, 0, 0⟩ 0 (fun _ => 0) collapseInput 1
      (initSimState, ⟨⟨0, 0, 0⟩, ⟨0, 0, 0⟩⟩)).1.planetMode = false ∧
    (simStep 0.96 ⟨0, 0, 0⟩ 0 (fun _ => 0) collapseInput 0.25
      (cexState, ⟨⟨0, 0, 0⟩, ⟨0, 0, 0⟩⟩)).1.planetMode = cexState.planetMode :=
  ⟨(collapse_clears_planet_iff_cooldown 0.96 ⟨0, 0, 0⟩ 0 (fun _ => 0) collapseInput 1
      (initSimState, ⟨⟨0, 0, 0⟩, ⟨0, 0, 0⟩⟩) rfl).1 (by norm_num [initSimState]),
    (collapse_clears_planet_iff_cooldown 0.96 ⟨0, 0, 0⟩ 0 (fun _ => 0) collapseInput 0.25
      (cexState, ⟨⟨0, 0, 0⟩, ⟨0, 0, 0⟩⟩) rfl).2 (by norm_num [cexState, initSimState])⟩


/-- An IDLE frame with no hands (the store's initial neutral `HandData`
snapshot). -/
def idleInput : FrameInput :=
  { left := none, right := none, gesture := .IDLE, centerX := 0, centerY := 0,
    centerZ := 0, distance := 0, rotation := 0 }

theorem clampVel_zero : clampVel 2.5 (⟨0, 0, 0⟩ : Vec3) = ⟨0, 0, 0⟩ := by
  simp [clampVel]

theorem updateParticle_idle_fixed (damping returnForce : ℝ) (rest planetCenter : Vec3)
    (time : ℝ) (i : ℕ) (leftPinched rightPinched : Bool) (centerPos : Vec3)
    (interactionRadius explosionAge clampedDelta : ℝ) (rnd : ℕ → ℝ)
    (hage : (2.0 : ℝ) ≤ explosionAge) :
    updateParticle damping returnForce rest .IDLE false planetCenter time i
      none none leftPinched rightPinched centerPos interactionRadius
      explosionAge clampedDelta rnd ⟨rest, ⟨0, 0, 0⟩⟩ = ⟨rest, ⟨0, 0, 0⟩⟩ := by
  have hnot : ¬ (explosionAge < 2.0 ∧ explosionAge > 0) := fun hand => by linarith [hand.1]
  simp [updateParticle, Vec3.smul, Vec3.add, Vec3.sub, hnot, clampVel_zero]

theorem simStep_idle (friction : ℝ) (rest : Vec3) (i : ℕ) (rnd : ℕ → ℝ)
    (inp : FrameInput) (delta : ℝ) (st : SimState × Particle)
    (hl : inp.left = none) (hr : inp.right = none) (hg : inp.gesture = .IDLE)
    (hpm : st.1.planetMode = false) (hex : st.1.explosionTime = -100)
    (ht : 0 ≤ st.1.time) (hd : 0 ≤ delta)
    (hpos : st.2.pos = rest) (hvel : st.2.vel = ⟨0, 0, 0⟩) :
    (simStep friction rest i rnd inp delta st).1.planetMode = false ∧
    (simStep friction rest i rnd inp delta st).1.explosionTime = -100 ∧
    0 ≤ (simStep friction rest i rnd inp delta st).1.time ∧
    (simStep friction rest i rnd inp delta st).2 = ⟨rest, ⟨0, 0, 0⟩⟩ := by
  obtain ⟨hct, hce, hcp, _⟩ :=
    controlUpdate_fields inp (min delta 0.05) { st.1 with time := st.1.time + delta }
  have h1 : (simStep friction rest i rnd inp delta st).1 =
      controlUpdate inp (min delta 0.05) { st.1 with time := st.1.time + delta } := by
    rw [simStep_fst friction rest i rnd inp delta st, hg, modeUpdate_idle]
  have hplanet : (simStep friction rest i rnd inp delta st).1.planetMode = false := by
    rw [h1, hcp]; exact hpm
  have hexp : (simStep friction rest i rnd inp delta st).1.explosionTime = -100 := by
    rw [h1, hce]; exact hex
  have htime : (simStep friction rest i rnd inp delta st).1.time = st.1.time + delta := by
    rw [h1, hct]
  refine ⟨hplanet, hexp, by rw [htime]; linarith, ?_⟩
  have hst2 : st.2 = (⟨rest, ⟨0, 0, 0⟩⟩ : Particle) := by
    rw [show st.2 = (⟨st.2.pos, st.2.vel⟩ : Particle) from rfl, hpos, hvel]
  have hage : (2.0 : ℝ) ≤ (simStep friction rest i rnd inp delta st).1.time -
      (simStep friction rest i rnd inp delta st).1.explosionTime := by
    rw [htime, hexp]; linarith
  have h2 : (simStep friction rest i rnd inp delta st).2 =
      updateParticle friction (0.5 * min delta 0.05) rest inp.gesture
        (simStep friction rest i rnd inp delta st).1.planetMode
        (simStep friction rest i rnd inp delta st).1.planetCenter
        (simStep friction rest i rnd inp delta st).1.time i
        (inp.left.map fun h => getLocalHandPos
          (controlUpdate inp (min delta 0.05) { st.1 with time := st.1.time + delta })
          ⟨h.x, h.y, h.z⟩)
        (inp.right.map fun h => getLocalHandPos
          (controlUpdate inp (min delta 0.05) { st.1 with time := st.1.time + delta })
          ⟨h.x, h.y, h.z⟩)
        ((inp.left.map Hand.isPinched).getD false)
        ((inp.right.map Hand.isPinched).getD false)
        (getLocalHandPos
          (controlUpdate inp (min delta 0.05) { st.1 with time := st.1.time + delta })
          ⟨inp.centerX, inp.centerY, inp.centerZ⟩)
        (12 / (controlUpdate inp (min delta 0.05)
          { st.1 with time := st.1.time + delta }).currentScale)
        ((simStep friction rest i rnd inp delta st).1.time -
          (simStep friction rest i rnd inp delta st).1.explosionTime)
        (min delta 0.05) rnd st.2 := rfl
  rw [h2, hl, hr, hg, hplanet, hst2]
  simp only [Option.map_none']
  exact updateParticle_idle_fixed _ _ _ _ _ _ _ _ _ _ _ _ _ hage

theorem idle_rest_invariant (friction : ℝ) (rest : Vec3) (i : ℕ)
    (rnds : ℕ → ℕ → ℝ) (inps : ℕ → FrameInput) (deltas : ℕ → ℝ)
    (st : SimState × Particle)
    (hl : ∀ n, (inps n).left = none) (hr : ∀ n, (inps n).right = none)
    (hg : ∀ n, (inps n).gesture = .IDLE) (hd : ∀ n, 0 ≤ deltas n)
    (hpm : st.1.planetMode = false) (hex : st.1.explosionTime = -100)
    (ht : 0 ≤ st.1.time) (hpos : st.2.pos = rest) (hvel : st.2.vel = ⟨0, 0, 0⟩) :
    ∀ n, (simIter friction rest i rnds inps deltas st n).1.planetMode = false ∧
      (simIter friction rest i rnds inps deltas st n).1.explosionTime = -100 ∧
      0 ≤ (simIter friction rest i rnds inps deltas st n).1.time ∧
      (simIter friction rest i rnds inps deltas st n).2 = ⟨rest, ⟨0, 0, 0⟩⟩ := by
  intro n
  induction n with
  | zero =>
    refine ⟨hpm, hex, ht, ?_⟩
    show st.2 = (⟨rest, ⟨0, 0, 0⟩⟩ : Particle)
    rw [show st.2 = (⟨st.2.pos, st.2.vel⟩ : Particle) from rfl, hpos, hvel]
  | succ m ih =>
    obtain ⟨h1, h2, h3, h4⟩ := ih
    exact simStep_idle friction rest i (rnds m) (inps m) (deltas m)
      (simIter friction rest i rnds inps deltas st m)
      (hl m) (hr m) (hg m) h1 h2 h3 (hd m) (by rw [h4]) (by rw [h4])

/-- C3: with both hand inputs null, gesture IDLE, planet mode off and the
explosion timestamp at the far-past sentinel -100, a particle whose
position equals its rest position and whose velocity is exactly zero is a
fixed point of the per-frame update: after any number of ticks (with any
nonnegative frame deltas and any noise oracles) its position and velocity
are unchanged. -/
theorem idle_rest_fixed_point (friction : ℝ) (rest : Vec3) (i : ℕ)
    (rnds : ℕ → ℕ → ℝ) (inps : ℕ → FrameInput) (deltas : ℕ → ℝ)
    (st : SimState × Particle)
    (hl : ∀ n, (inps n).left = none) (hr : ∀ n, (inps n).right = none)
    (hg : ∀ n, (inps n).gesture = .IDLE) (hd : ∀ n, 0 ≤ deltas n)
    (hpm : st.1.planetMode = false) (hex : st.1.explosionTime = -100)
    (ht : 0 ≤ st.1.time) (hpos : st.2.pos = rest) (hvel : st.2.vel = ⟨0, 0, 0⟩) :
    ∀ n, (simIter friction rest i rnds inps deltas st n).2.pos = rest ∧
      (simIter friction rest i rnds inps deltas st n).2.vel = ⟨0, 0, 0⟩ := by
  intro n
  obtain ⟨_, _, _, h4⟩ := idle_rest_invariant friction rest i rnds inps deltas st
    hl hr hg hd hpm hex ht hpos hvel n
  exact ⟨by rw [h4], by rw [h4]⟩

/-- Witness for C3: two ticks of 1/60 s from the initial simulator state
with the particle at rest position (1, 2, 3). -/
theorem idle_rest_fixed_point_witness :
    (simIter 0.96 ⟨1, 2, 3⟩ 0 (fun _ _ => 0) (fun _ => idleInput) (fun _ => 1 / 60)
      (initSimState, ⟨⟨1, 2, 3⟩, ⟨0, 0, 0⟩⟩) 2).2.pos = ⟨1, 2, 3⟩ ∧
    (simIter 0.96 ⟨1, 2, 3⟩ 0 (fun _ _ => 0) (fun _ => idleInput) (fun _ => 1 / 60)
      (initSimState, ⟨⟨1, 2, 3⟩, ⟨0, 0, 0⟩⟩) 2).2.vel = ⟨0, 0, 0⟩ :=
  idle_rest_fixed_point 0.96 ⟨1, 2, 3⟩ 0 (fun _ _ => 0) (fun _ => idleInput)
    (fun _ => 1 / 60) (initSimState, ⟨⟨1, 2, 3⟩, ⟨0, 0, 0⟩⟩)
    (fun _ => rfl) (fun _ => rfl) (fun _ => rfl) (fun _ => by norm_num)
    rfl rfl le_rfl rfl rfl 2

end

end GodHand
